import Mathlib

/-!
Verification of the `ocr-extractor` insurance-policy extraction pipeline.

This file gives a shallow embedding, in Lean, of the three core components of
the repository:

* `extractTextFromPdf` — the text-acquisition decision logic of
  `src/extractor/pdf_processor.py` (`extract_text_from_pdf`).  The actual PDF
  readers and the OCR engine are external capabilities; their outputs (the
  direct-extraction text and the OCR text) are passed in as plain strings and
  the function records, besides its result, whether the OCR fallback path ran.

* `parseKeyValuePairs` / `fillMissingRequiredFields` — the response parser of
  `src/extractor/ai_extractor.py` (`AIExtractor._parse_key_value_pairs`,
  `_set_nested_value`, `_fill_missing_required_fields`).  Python dictionaries
  are modelled as insertion-ordered association lists; Python runtime errors
  (`TypeError` from indexing or item-assignment on a non-dict, `AttributeError`
  from `.get` on a non-dict, `KeyError`) are modelled by `Except Unit`, since
  no exception raised inside the parser is caught anywhere in the component —
  an error always propagates out of `extract` and no partial document is
  observable.

* `validateExtractedData` / `checkMissingFields` — the schema validator of
  `src/extractor/schema_validator.py`.  The `jsonschema` library call and the
  schema file load are external; they enter as parameters describing their
  outcome.  The schema document `validator.json` itself is not part of the
  sources, so the portions of it the claims need are modelled from the spec.

Python numbers: `int` is modelled by `Int`; `float` is modelled by `Rat`
(every float produced by this code comes from parsing a short decimal string,
which is exact, and the comparison `len > n * 1.5` compares exact values in
Python as well).  Python string methods are modelled on `List Char` with the
ASCII case table; `str.strip` strips Python's whitespace set.
-/

/-! ## Python string primitives -/

/-- Python's whitespace set for `str.strip`: space, tab, newline, carriage
return, vertical tab, form feed. -/
def pySpaceChar (c : Char) : Bool :=
  c = ' ' ∨ c = '\t' ∨ c = '\n' ∨ c = '\r' ∨ c = '\x0b' ∨ c = '\x0c'

/-- ASCII lower-casing of one character (`str.lower` restricted to ASCII). -/
def lowerChar (c : Char) : Char :=
  if 'A' ≤ c ∧ c ≤ 'Z' then Char.ofNat (c.toNat + 32) else c

/-- ASCII upper-casing of one character (`str.upper` restricted to ASCII). -/
def upperChar (c : Char) : Char :=
  if 'a' ≤ c ∧ c ≤ 'z' then Char.ofNat (c.toNat - 32) else c

/-- Model of Python `str.strip()`. -/
def pyStrip (s : String) : String :=
  ⟨((s.data.dropWhile pySpaceChar).reverse.dropWhile pySpaceChar).reverse⟩

/-- Model of Python `str.lower()` (ASCII). -/
def pyLower (s : String) : String := ⟨s.data.map lowerChar⟩

/-- Model of Python `str.upper()` (ASCII). -/
def pyUpper (s : String) : String := ⟨s.data.map upperChar⟩

/-- Does the pattern occur at the head of the character list? -/
def leadsWith : List Char → List Char → Bool
  | [], _ => true
  | _ :: _, [] => false
  | a :: as, b :: bs => a = b && leadsWith as bs

/-- Does the pattern occur anywhere in the character list?  This is Python's
substring test `pat in s`. -/
def occursIn (pat : List Char) : List Char → Bool
  | [] => leadsWith pat []
  | c :: rest => leadsWith pat (c :: rest) || occursIn pat rest

/-- Python `pat in s` on strings. -/
def pyInStr (pat s : String) : Bool := occursIn pat.data s.data

/-- Python `c in s` for a single character (used for `':' in line`,
`'.' in cleaned`). -/
def pyCharIn (c : Char) (s : String) : Bool := s.data.contains c

/-- Split a character list at every occurrence of the separator character;
Python `str.split(sep)` with a one-character separator. -/
def splitChar (sep : Char) : List Char → List (List Char)
  | [] => [[]]
  | c :: rest =>
    match splitChar sep rest with
    | [] => [[]]
    | grp :: grps => if c = sep then [] :: grp :: grps else (c :: grp) :: grps

/-- Python `str.split(sep)` with a one-character separator string. -/
def pySplit (s : String) (sep : Char) : List String :=
  (splitChar sep s.data).map String.mk

/-- Python `line.split(':', 1)`: the part before the first colon and the part
after it.  Only called when the line contains a colon, in which case the
result always has exactly two parts. -/
def splitFirstColon (s : String) : String × String :=
  match pySplit s ':' with
  | [] => (s, "")
  | k :: rest => (k, String.intercalate ":" rest)

/-- Removal of every `'$'` character: `value.replace('$', '')`. -/
def removeDollar (s : String) : String := ⟨s.data.filter (· ≠ '$')⟩

/-- Removal of every `','` character: `value.replace(',', '')`. -/
def removeComma (s : String) : String := ⟨s.data.filter (· ≠ ',')⟩

/-- Left-to-right removal of every occurrence of `"HKD"`:
`value.replace('HKD', '')`. -/
def removeHKDChars : List Char → List Char
  | 'H' :: 'K' :: 'D' :: rest => removeHKDChars rest
  | c :: rest => c :: removeHKDChars rest
  | [] => []

/-- `value.replace('$', '').replace(',', '').replace('HKD', '').strip()`
from `_set_nested_value`'s numeric branches. -/
def stripCurrency (s : String) : String :=
  pyStrip ⟨removeHKDChars (removeComma (removeDollar s)).data⟩

/-- Python `int(s)`: optional surrounding whitespace, an optional sign, then a
non-empty digit string.  (Underscore separators and non-ASCII digits are not
modelled.) -/
def pyInt (s : String) : Option Int :=
  let t := (pyStrip s).data
  let (sign, digits) :=
    match t with
    | '+' :: rest => ((1 : Int), rest)
    | '-' :: rest => ((-1 : Int), rest)
    | _ => ((1 : Int), t)
  if digits ≠ [] ∧ digits.all Char.isDigit then
    some (sign * (digits.foldl (fun n c => 10 * n + (c.toNat - '0'.toNat)) 0 : Nat))
  else none

/-- Digit-list value, used by the float parser. -/
def digitsToNat (cs : List Char) : Nat :=
  cs.foldl (fun n c => 10 * n + (c.toNat - '0'.toNat)) 0

/-- Python `float(s)` for plain decimal notation with an optional exponent:
optional whitespace, optional sign, `digits[.digits]` or `.digits`, optional
`e`/`E` exponent.  The result is the exact rational value.  (`inf`, `nan` and
underscore separators are not modelled.) -/
def pyFloat (s : String) : Option Rat :=
  let t := (pyStrip s).data
  let (sign, body) :=
    match t with
    | '+' :: rest => ((1 : Rat), rest)
    | '-' :: rest => ((-1 : Rat), rest)
    | _ => ((1 : Rat), t)
  let (mant, ex) :=
    match splitChar 'e' (body.map lowerChar) with
    | [m] => (some m, some ([] : List Char))
    | [m, e] => (some m, some e)
    | _ => (none, none)
  match mant, ex with
  | some m, some e =>
    let (esign, edigits) :=
      match e with
      | '+' :: rest => ((1 : Int), rest)
      | '-' :: rest => ((-1 : Int), rest)
      | _ => ((1 : Int), e)
    -- the exponent part, when present, must be a non-empty digit string
    if e ≠ [] ∧ ¬ (edigits ≠ [] ∧ edigits.all Char.isDigit) then none
    else
      let expVal : Int := esign * (digitsToNat edigits : Nat)
      match splitChar '.' m with
      | [ip] =>
        if ip ≠ [] ∧ ip.all Char.isDigit then
          some (sign * (digitsToNat ip : Rat) * (10 : Rat) ^ expVal)
        else none
      | [ip, fp] =>
        if (ip ≠ [] ∨ fp ≠ []) ∧ ip.all Char.isDigit ∧ fp.all Char.isDigit then
          some (sign * ((digitsToNat ip : Rat) + (digitsToNat fp : Rat) / (10 : Rat) ^ fp.length)
            * (10 : Rat) ^ expVal)
        else none
      | _ => none
  | _, _ => none

/-! ## The document model

A parsed document is a Python dictionary whose leaves are strings, integers,
floats, lists of strings, or `None`.  Dictionaries are insertion-ordered
association lists, as in CPython. -/

/-- A Python value as it occurs in the extractor's documents. -/
inductive JSON where
  | null
  | str (s : String)
  | int (n : Int)
  | num (q : Rat)
  | list (xs : List String)
  | obj (fields : List (String × JSON))
  deriving Repr

/-- The field list of a document object. -/
abbrev Fields := List (String × JSON)

/-- First binding of a key in an association list (Python dict lookup; keys
are unique in any dict the code builds). -/
def lookupKey : Fields → String → Option JSON
  | [], _ => none
  | (k, v) :: rest, key => if k = key then some v else lookupKey rest key

/-- `d[key] = val` on a dict: replace the binding in place if the key is
present, else append it (CPython insertion order). -/
def setKey : Fields → String → JSON → Fields
  | [], key, val => [(key, val)]
  | (k, v) :: rest, key, val =>
    if k = key then (k, val) :: rest else (k, v) :: setKey rest key val

/-- `d.pop(key, None)` on a dict: drop the binding if present. -/
def eraseKey : Fields → String → Fields
  | [], _ => []
  | (k, v) :: rest, key => if k = key then rest else (k, v) :: eraseKey rest key

/-- Is the value `None`? -/
def isNull : JSON → Bool
  | .null => true
  | _ => false

/-- Is the value a dict? -/
def isObj : JSON → Bool
  | .obj _ => true
  | _ => false

/-- Python truthiness of a value (`not levies`). -/
def pyTruthy : JSON → Bool
  | .null => false
  | .str s => s ≠ ""
  | .int n => n ≠ 0
  | .num q => q ≠ 0
  | .list xs => !xs.isEmpty
  | .obj fs => !fs.isEmpty

/-- Python `key in v`.  On a dict this is key membership; on a string it is the
substring test; on a list it is element membership; on `None` and on numbers it
raises `TypeError`. -/
def pyContainsKey (v : JSON) (key : String) : Except Unit Bool :=
  match v with
  | .obj fields => .ok (lookupKey fields key).isSome
  | .str s => .ok (pyInStr key s)
  | .list xs => .ok (xs.contains key)
  | _ => .error ()

/-- Python `v[key]`.  On a dict a missing key raises `KeyError`; on any
non-dict, indexing with a string key raises `TypeError`. -/
def pyGetItem (v : JSON) (key : String) : Except Unit JSON :=
  match v with
  | .obj fields =>
    match lookupKey fields key with
    | some x => .ok x
    | none => .error ()
  | _ => .error ()

/-- Python `v[key] = val`.  Item assignment on a non-dict raises
`TypeError`. -/
def pySetItem (v : JSON) (key : String) (val : JSON) : Except Unit JSON :=
  match v with
  | .obj fields => .ok (.obj (setKey fields key val))
  | _ => .error ()

/-- Python `v.get(key)`: `None` when the key is absent.  `.get` on a non-dict
raises `AttributeError`. -/
def pyGetDefault (v : JSON) (key : String) : Except Unit JSON :=
  match v with
  | .obj fields => .ok ((lookupKey fields key).getD .null)
  | _ => .error ()

/-- Walk a dotted path through nested objects; `none` when any step is absent
or passes through a non-object. -/
def getPath (fs : Fields) : List String → Option JSON
  | [] => none
  | [k] => lookupKey fs k
  | k :: rest =>
    match lookupKey fs k with
    | some (.obj gs) => getPath gs rest
    | _ => none

/-! ## `AIExtractor._set_nested_value` -/

/-- The required string fields of `_set_nested_value` (kept as `"N/A"` /
`"UNKNOWN"` / `"REDACTED"` strings rather than `None`). -/
def requiredStringFields : List String :=
  ["name", "address", "occupation", "registrationMark", "makeAndModel",
   "chassisNumber", "bodyType", "typeOfCover", "limitationsOnUse",
   "authorizedDrivers", "insurerName", "policyNumber"]

/-- The integer-typed leaf names of `_set_nested_value`. -/
def intFields : List String := ["yearOfManufacture", "seatingCapacity"]

/-- The number-typed leaf names of `_set_nested_value`. -/
def numberFields : List String :=
  ["premiumAmount", "totalPayable", "noClaimDiscount", "bodilyInjury",
   "propertyDamage", "cubicCapacity", "estimatedValue", "mib",
   "thirdPartyProperty", "youngDriver", "inexperiencedDriver", "unnamedDriver"]

/-- `float(cleaned) if '.' in cleaned else int(cleaned)` (raising `ValueError`
on failure, modelled as `none`). -/
def pyNumber (cleaned : String) : Option JSON :=
  if pyCharIn '.' cleaned then (pyFloat cleaned).map .num
  else (pyInt cleaned).map .int

/-- The leaf coercion of `_set_nested_value`, dispatched on the final path
segment exactly as in the source. -/
def coerceValue (finalKey value : String) : JSON :=
  if finalKey = "namedDrivers" ∨ finalKey = "endorsements" then
    -- comma-separated array values
    if value ≠ "" ∧ value ≠ "N/A" then
      .list (((pySplit value ',').map pyStrip).filter (· ≠ ""))
    else .list []
  else if finalKey ∈ intFields then
    -- int(value) if value != "N/A" else None, ValueError/TypeError -> None
    if value = "N/A" then .null
    else match pyInt value with
      | some n => .int n
      | none => .null
  else if finalKey ∈ numberFields then
    -- strip currency symbols and commas, then float/int; failure -> None
    let cleaned := stripCurrency value
    if cleaned ≠ "" ∧ cleaned ≠ "N/A" then
      match pyNumber cleaned with
      | some j => j
      | none => .null
    else .null
  else if finalKey = "ia" then
    -- can be number or string; the "INCLUDED" test on assignment uses the
    -- *original* value, not the cleaned one
    let cleaned := stripCurrency value
    if cleaned ≠ "" ∧ pyUpper cleaned ≠ "INCLUDED" ∧ cleaned ≠ "N/A" then
      match pyNumber cleaned with
      | some j => j
      | none => if pyUpper value = "INCLUDED" then .str value else .null
    else if pyUpper value = "INCLUDED" then .str value else .null
  else if finalKey ∈ requiredStringFields then
    if pyUpper value = "N/A" ∨ pyUpper value = "UNKNOWN" ∨ pyUpper value = "REDACTED" then
      .str (pyUpper value)
    else if (pyUpper value).startsWith "UNKNOWN" ∨ (pyUpper value).startsWith "REDACTED" then
      .str value  -- keep the full "UNKNOWN - ..." / "REDACTED" message
    else .str value
  else
    -- optional string fields can be None
    if value = "N/A" then .null else .str value

/-- The body of `_set_nested_value` after splitting the key path: navigate to
the parent of the target key, creating intermediate dicts, then assign the
coerced leaf.  Navigating into (or assigning onto) a value that is not a dict
raises in Python for every value type, so it is `.error ()` here. -/
def setNestedGo : JSON → List String → String → Except Unit JSON
  | v, [k], value =>
    -- current[final_key] = <coerced value>
    (match v with
     | .obj fields => .ok (.obj (setKey fields k (coerceValue k value)))
     | _ => .error ())
  | v, k :: rest, value =>
    -- if key not in current: current[key] = {}; current = current[key]
    (match v with
     | .obj fields => do
        let child := (lookupKey fields k).getD (.obj [])
        let child' ← setNestedGo child rest value
        pure (.obj (setKey fields k child'))
     | _ => .error ())
  | _, [], _ => .error ()

/-- `AIExtractor._set_nested_value(data, key_path, value)`:
`keys = key_path.split('.')`, then navigate and assign. -/
def setNestedValue (d : Fields) (keyPath value : String) : Except Unit Fields :=
  match setNestedGo (.obj d) (pySplit keyPath '.') value with
  | .ok (.obj d') => .ok d'
  | _ => .error ()

/-! ## `AIExtractor._parse_key_value_pairs` -/

/-- The skeleton dict initialised at the top of `_parse_key_value_pairs`. -/
def initialData : Fields :=
  [("policyholder", .obj []),
   ("vehicle", .obj []),
   ("coverage", .obj [("liabilityLimits", .obj []), ("excess", .obj [])]),
   ("premiumAndDiscounts", .obj [("levies", .obj [])]),
   ("insurerAndPolicyDetails", .obj [("periodOfInsurance", .obj [])]),
   ("additionalEndorsements", .obj [])]

/-- `parts[0].strip()` of a line that contains a colon. -/
def lineKey (line : String) : String := pyStrip (splitFirstColon (pyStrip line)).1

/-- `parts[1].strip()` of a line that contains a colon. -/
def lineValue (line : String) : String := pyStrip (splitFirstColon (pyStrip line)).2

/-- Processing of one line of the response inside the `for line in lines`
loop: skip blank lines and lines without a colon, skip empty values and plain
`"null"` values (unless a sentinel substring is present), and otherwise
assign through `_set_nested_value`.  (`len(parts) != 2` can never hold once
the line contains a colon, so that `continue` is unreachable.) -/
def processLine (d : Fields) (line : String) : Except Unit Fields :=
  if pyStrip line = "" then .ok d
  else if ¬ pyCharIn ':' (pyStrip line) then .ok d
  else
    let value := lineValue line
    if value = "" then .ok d
    else if pyLower value = "null" ∧ ¬ pyInStr "N/A" value ∧
        ¬ pyInStr "UNKNOWN" (pyUpper value) ∧ ¬ pyInStr "REDACTED" (pyUpper value) then
      .ok d
    else setNestedValue d (lineKey line) value

/-- The line-by-line phase of `_parse_key_value_pairs`:
`lines = response_text.strip().split('\n')` folded over `processLine`,
starting from the skeleton dict. -/
def parseLinesPhase (text : String) : Except Unit Fields :=
  (pySplit (pyStrip text) '\n').foldlM processLine initialData

/-! ## `AIExtractor._fill_missing_required_fields` -/

/-- Does the required-field check
`key not in section or section.get(key) is None` ask for a default?  Raises
exactly when Python would: both disjuncts raise on a non-dict section. -/
def shouldFill (v : JSON) (key : String) : Except Unit Bool := do
  let c ← pyContainsKey v key
  if !c then pure true
  else do
    let g ← pyGetDefault v key
    pure (isNull g)

/-- Fill a list of `(key, default)` pairs into a section value, in order,
assigning `section[key] = default` whenever `shouldFill`.  This is the loop
body shared by every scalar-default loop in `_fill_missing_required_fields`.
-/
def fillScalars : JSON → List (String × JSON) → Except Unit JSON
  | v, [] => .ok v
  | v, (key, dflt) :: rest => do
    let b ← shouldFill v key
    let v' ← if b then pySetItem v key dflt else pure v
    fillScalars v' rest

/-- Wrapper shared by the five section fills: optionally pre-create the
section (`if sec not in data: data[sec] = {}`), view the section value
(`data.get(sec, {})` for `policyholder`, plain indexing for the others —
indistinguishable because on an absent section every default is assigned),
run the section body, and store the result back. -/
def fillSectionWith (pre : Bool) (secKey : String) (body : JSON → Except Unit JSON)
    (data : Fields) : Except Unit Fields :=
  let data := if pre ∧ (lookupKey data secKey).isNone
    then setKey data secKey (.obj []) else data
  let v := (lookupKey data secKey).getD (.obj [])
  do
    let v' ← body v
    pure (setKey data secKey v')

/-- `defaults["policyholder"]`. -/
def policyholderDefaults : List (String × JSON) :=
  [("name", .str "UNKNOWN"), ("address", .str "UNKNOWN"), ("occupation", .str "UNKNOWN")]

/-- `defaults["vehicle"]` (integer defaults for the two integer fields; both
loop branches in the source run the identical check and assignment). -/
def vehicleDefaults : List (String × JSON) :=
  [("registrationMark", .str "UNKNOWN"), ("makeAndModel", .str "UNKNOWN"),
   ("yearOfManufacture", .int 0), ("chassisNumber", .str "UNKNOWN"),
   ("seatingCapacity", .int 0), ("bodyType", .str "UNKNOWN")]

/-- The scalar members of `defaults["coverage"]`, in dict order. -/
def coverageScalarDefaults : List (String × JSON) :=
  [("typeOfCover", .str "UNKNOWN"),
   ("limitationsOnUse", .str "UNKNOWN - standard usage restrictions apply"),
   ("authorizedDrivers", .str "UNKNOWN - standard driver authorization applies")]

/-- `defaults["coverage"]["liabilityLimits"]`. -/
def liabilityDefaults : List (String × JSON) :=
  [("bodilyInjury", .int 0), ("propertyDamage", .int 0)]

/-- `defaults["premiumAndDiscounts"]`. -/
def premiumDefaults : List (String × JSON) :=
  [("premiumAmount", .num 0), ("totalPayable", .num 0), ("noClaimDiscount", .num 0)]

/-- The scalar members of `defaults["insurerAndPolicyDetails"]`. -/
def insurerScalarDefaults : List (String × JSON) :=
  [("insurerName", .str "UNKNOWN"), ("policyNumber", .str "UNKNOWN")]

/-- `defaults["insurerAndPolicyDetails"]["periodOfInsurance"]`. -/
def periodDefaults : List (String × JSON) :=
  [("start", .str "UNKNOWN"), ("end", .str "UNKNOWN")]

/-- The coverage section of `_fill_missing_required_fields`: scalar defaults,
then the `liabilityLimits` sub-dict (created when absent, then filled), then
the `excess` sub-dict (created when absent, never filled). -/
def coverageBody (v : JSON) : Except Unit JSON := do
  let v ← fillScalars v coverageScalarDefaults
  let b ← pyContainsKey v "liabilityLimits"
  let v ← if b then pure v else pySetItem v "liabilityLimits" (.obj [])
  let ll ← pyGetItem v "liabilityLimits"
  let ll ← fillScalars ll liabilityDefaults
  let v ← pySetItem v "liabilityLimits" ll
  let b2 ← pyContainsKey v "excess"
  if b2 then pure v else pySetItem v "excess" (.obj [])

/-- One member statement of the levies paragraph
(`if "mib" in levies and levies["mib"] is None: levies["mib"] = 0.0`). -/
def leviesMember (lev : JSON) (key : String) : Except Unit JSON := do
  let c ← pyContainsKey lev key
  if c then do
    let m ← pyGetItem lev key
    if isNull m then pySetItem lev key (.num 0) else pure lev
  else pure lev

/-- The `# Handle levies` paragraph of `_fill_missing_required_fields`,
acting on the `premiumAndDiscounts` section value: backfill a present `None`
member to `0.0`, then remove the levies object when it is falsy or both
members read back as `None` through `.get` (i.e. both are absent, since a
present `None` was just backfilled). -/
def leviesCleanup (v : JSON) : Except Unit JSON := do
  let hasLevies ← pyContainsKey v "levies"
  if !hasLevies then pure v
  else do
    let lev ← pyGetItem v "levies"
    let lev ← leviesMember lev "mib"
    let lev ← leviesMember lev "ia"
    if ¬ pyTruthy lev then
      match v with
      | .obj fs => pure (.obj (eraseKey fs "levies"))
      | _ => .error ()
    else do
      let gm ← pyGetDefault lev "mib"
      let gi ← pyGetDefault lev "ia"
      if isNull gm ∧ isNull gi then
        match v with
        | .obj fs => pure (.obj (eraseKey fs "levies"))
        | _ => .error ()
      else pySetItem v "levies" lev

/-- The premium section of `_fill_missing_required_fields`: scalar defaults,
then the levies handling. -/
def premiumBody (v : JSON) : Except Unit JSON := do
  let v ← fillScalars v premiumDefaults
  leviesCleanup v

/-- The insurer section of `_fill_missing_required_fields`: the
`periodOfInsurance` sub-dict is created (when absent) before the loop, then
the scalar defaults run, then the `periodOfInsurance` inner loop. -/
def insurerBody (v : JSON) : Except Unit JSON := do
  let b ← pyContainsKey v "periodOfInsurance"
  let v ← if b then pure v else pySetItem v "periodOfInsurance" (.obj [])
  let v ← fillScalars v insurerScalarDefaults
  let poi ← pyGetItem v "periodOfInsurance"
  let poi ← fillScalars poi periodDefaults
  pySetItem v "periodOfInsurance" poi

/-- `AIExtractor._fill_missing_required_fields(data)`: the five section fills
in source order. -/
def fillMissingRequiredFields (data : Fields) : Except Unit Fields := do
  let d ← fillSectionWith false "policyholder" (fillScalars · policyholderDefaults) data
  let d ← fillSectionWith true "vehicle" (fillScalars · vehicleDefaults) d
  let d ← fillSectionWith true "coverage" coverageBody d
  let d ← fillSectionWith true "premiumAndDiscounts" premiumBody d
  fillSectionWith true "insurerAndPolicyDetails" insurerBody d

/-- `AIExtractor._parse_key_value_pairs(response_text)`: the line-by-line
phase followed by the default-completion pass. -/
def parseKeyValuePairs (text : String) : Except Unit Fields :=
  parseLinesPhase text >>= fillMissingRequiredFields

/-! ## `extract_text_from_pdf` (pdf_processor.py)

The PDF readers are external: the text the direct path would produce and the
text the OCR path would produce are inputs.  The second component of the
result records whether the OCR fallback path was entered at all (the OCR
engine is only invoked inside that branch). -/

/-- `extract_text_from_pdf(pdf_path, use_ocr)` decision logic.  `directText`
is `_extract_text_direct`'s result, `ocrText` is `_extract_text_ocr`'s
result.  `len(ocr_text.strip()) > text_length * 1.5` is an exact comparison
between a Python int and a Python float; it is modelled exactly over `Rat`. -/
def extractTextFromPdf (directText : String) (useOcr : Bool) (ocrText : String) :
    String × Bool :=
  let textLength := (pyStrip directText).length
  if useOcr = true ∧ textLength < 100 then
    if ((pyStrip ocrText).length : Rat) > (textLength : Rat) * 1.5 then (ocrText, true)
    else (directText, true)
  else (directText, false)

/-! ## `schema_validator.py` -/

/-- `ValidationResult` of schema_validator.py. -/
structure ValidationResult where
  is_valid : Bool
  errors : List String
  missing_fields : List String
  deriving Repr, DecidableEq

mutual

/-- The shape of a JSON-Schema node as far as `_check_missing_fields` reads
it: an optional `properties` map and a `required` list.  (A node without
`properties` is never recursed into; the `elif` branch for
`type == "object"` in the source is dead code, since it re-tests
`"properties" in prop_schema` inside the branch taken only when that test
already failed.) -/
inductive SchemaN where
  | node (properties : Option SchemaProps) (required : List String)

/-- The `properties` map of a schema node, as a cons-list of named child
nodes (in declaration order, like a Python dict). -/
inductive SchemaProps where
  | nil
  | cons (name : String) (s : SchemaN) (rest : SchemaProps)

end

/-- Build a `properties` map from a plain list of named nodes. -/
def propsOf : List (String × SchemaN) → SchemaProps
  | [] => .nil
  | (n, s) :: rest => .cons n s (propsOf rest)

mutual

/-- `_check_missing_fields(data, schema, missing_fields, prefix)`: for each
declared property in order, record `prefix.prop` when the property is
required and absent-or-`None` in the data, then recurse into the property
when the data holds a dict there and the property schema declares nested
`properties`. -/
def checkMissingFields (data : Fields) : SchemaN → String → List String
  | .node none _, _ => []
  | .node (some props) required, pre => checkMissingProps data required pre props

/-- The `for prop_name, prop_schema in schema["properties"].items()` loop of
`_check_missing_fields`. -/
def checkMissingProps (data : Fields) (required : List String) (pre : String) :
    SchemaProps → List String
  | .nil => []
  | .cons pname pschema rest =>
    let cur := if pre = "" then pname else pre ++ "." ++ pname
    let missedHere :=
      if pname ∈ required ∧
          ((lookupKey data pname).isNone ∨ (lookupKey data pname).any isNull) then [cur]
      else []
    let recursed :=
      match lookupKey data pname with
      | some (.obj sub) =>
        match pschema with
        | .node (some ps) req => checkMissingProps sub req cur ps
        | .node none _ => []
      | _ => []
    missedHere ++ recursed ++ checkMissingProps data required pre rest

end

/-- `" -> ".join(str(p) for p in e.path) if e.path else "root"`. -/
def renderErrorPath (path : List String) : String :=
  if path = [] then "root" else String.intercalate " -> " path

/-- A `jsonschema.ValidationError` as `validate_extracted_data` reads it: the
path to the violation and the message. -/
structure JsonSchemaError where
  path : List String
  message : String

/-- Outcome of the external `jsonschema.validate(instance, schema)` call:
success, a `ValidationError`, or some other exception with its `str(e)`. -/
inductive JsOutcome where
  | ok
  | vErr (e : JsonSchemaError)
  | exn (msg : String)

/-- `validate_extracted_data(data)`.  The schema load and the `jsonschema`
call are external: `load` is the outcome of `_load_schema()` (a schema or an
exception message) and `outcome` is the outcome of `jsonschema.validate`.
The three `except` arms of the source map onto the non-`ok` outcomes; the
repeated `_load_schema()` inside the `ValidationError` handler sees the same
schema, and `_check_missing_fields` itself is total, so its guarding
`try/except: pass` never fires. -/
def validateExtractedData (load : Except String SchemaN) (outcome : JsOutcome)
    (data : Fields) : Fields × ValidationResult :=
  match load with
  | .error m => (data, ⟨false, ["Unexpected validation error: " ++ m], []⟩)
  | .ok schema =>
    match outcome with
    | .ok => (data, ⟨true, [], checkMissingFields data schema ""⟩)
    | .vErr e =>
      (data, ⟨false, [renderErrorPath e.path ++ ": " ++ e.message],
        checkMissingFields data schema ""⟩)
    | .exn m => (data, ⟨false, ["Unexpected validation error: " ++ m], []⟩)

/-- Modelled from the spec: the external schema document `validator.json` is
not among the sources (only `schema_validator.py`, which loads it, is).  Its
required/optional structure is reconstructed from the spec's required-field
lists (§3, §8) and mirrors the reference pydantic models of
`src/models/policy_schema.py`. -/
def policySchema : SchemaN :=
  .node (some (propsOf
    [("policyholder", .node (some (propsOf
        [("name", .node none []), ("address", .node none []),
         ("occupation", .node none []), ("namedDrivers", .node none [])]))
        ["name", "address", "occupation"]),
     ("vehicle", .node (some (propsOf
        [("registrationMark", .node none []), ("makeAndModel", .node none []),
         ("yearOfManufacture", .node none []), ("chassisNumber", .node none []),
         ("engineNumber", .node none []), ("cubicCapacity", .node none []),
         ("seatingCapacity", .node none []), ("bodyType", .node none []),
         ("estimatedValue", .node none [])]))
        ["registrationMark", "makeAndModel", "yearOfManufacture",
         "chassisNumber", "seatingCapacity", "bodyType"]),
     ("coverage", .node (some (propsOf
        [("typeOfCover", .node none []),
         ("liabilityLimits", .node (some (propsOf
            [("bodilyInjury", .node none []), ("propertyDamage", .node none [])]))
            ["bodilyInjury", "propertyDamage"]),
         ("excess", .node (some (propsOf
            [("thirdPartyProperty", .node none []), ("youngDriver", .node none []),
             ("inexperiencedDriver", .node none []), ("unnamedDriver", .node none [])]))
            []),
         ("limitationsOnUse", .node none []),
         ("authorizedDrivers", .node none [])]))
        ["typeOfCover", "liabilityLimits", "excess", "limitationsOnUse",
         "authorizedDrivers"]),
     ("premiumAndDiscounts", .node (some (propsOf
        [("premiumAmount", .node none []), ("totalPayable", .node none []),
         ("noClaimDiscount", .node none []),
         ("levies", .node (some (propsOf
            [("mib", .node none []), ("ia", .node none [])])) [])]))
        ["premiumAmount", "totalPayable", "noClaimDiscount"]),
     ("insurerAndPolicyDetails", .node (some (propsOf
        [("insurerName", .node none []), ("policyNumber", .node none []),
         ("periodOfInsurance", .node (some (propsOf
            [("start", .node none []), ("end", .node none [])]))
            ["start", "end"]),
         ("dateOfIssue", .node none [])]))
        ["insurerName", "policyNumber", "periodOfInsurance"]),
     ("additionalEndorsements", .node (some (propsOf
        [("endorsements", .node none []), ("hirePurchaseMortgagee", .node none [])]))
        [])]))
    ["policyholder", "vehicle", "coverage", "premiumAndDiscounts",
     "insurerAndPolicyDetails"]

/-! ## Association-list lemmas -/

theorem bindOk {α β : Type} (a : α) (f : α → Except Unit β) :
    (Except.ok a >>= f) = f a := rfl

theorem bindErr {α β : Type} (f : α → Except Unit β) :
    ((Except.error () : Except Unit α) >>= f) = (.error () : Except Unit β) := rfl

theorem pureOk {α : Type} (a : α) : (pure a : Except Unit α) = .ok a := rfl

theorem lookupKey_setKey_self (l : Fields) (k : String) (v : JSON) :
    lookupKey (setKey l k v) k = some v := by
  induction l with
  | nil => simp [setKey, lookupKey]
  | cons hd tl ih =>
    obtain ⟨k', v'⟩ := hd
    by_cases h : k' = k <;> simp [setKey, lookupKey, h, ih]

theorem lookupKey_setKey_ne (l : Fields) (k key : String) (v : JSON) (h : key ≠ k) :
    lookupKey (setKey l k v) key = lookupKey l key := by
  have h' : ¬ (k = key) := fun hh => h hh.symm
  induction l with
  | nil => simp [setKey, lookupKey, h']
  | cons hd tl ih =>
    obtain ⟨k', v'⟩ := hd
    by_cases h1 : k' = k
    · subst h1
      simp [setKey, lookupKey, h']
    · simp [setKey, lookupKey, h1, ih]

theorem setKey_self_of_lookup (l : Fields) (k : String) (v : JSON)
    (h : lookupKey l k = some v) : setKey l k v = l := by
  induction l with
  | nil => simp [lookupKey] at h
  | cons hd tl ih =>
    obtain ⟨k', v'⟩ := hd
    by_cases h1 : k' = k
    · subst h1
      simp [lookupKey] at h
      simp [setKey, h]
    · simp [lookupKey, h1] at h
      simp [setKey, h1, ih h]

theorem lookupKey_eraseKey_self (l : Fields) (k : String)
    (hnd : (l.map Prod.fst).Nodup) : lookupKey (eraseKey l k) k = none := by
  induction l with
  | nil => simp [eraseKey, lookupKey]
  | cons hd tl ih =>
    obtain ⟨k', v'⟩ := hd
    simp only [List.map_cons, List.nodup_cons] at hnd
    by_cases h1 : k' = k
    · subst h1
      simp only [eraseKey, if_pos rfl]
      cases hl : lookupKey tl k' with
      | none => exact hl
      | some x =>
        exfalso
        apply hnd.1
        clear ih hnd
        induction tl with
        | nil => simp [lookupKey] at hl
        | cons hd2 tl2 ih2 =>
          obtain ⟨k2, v2⟩ := hd2
          by_cases h2 : k2 = k'
          · simp [h2]
          · simp only [lookupKey, if_neg h2] at hl
            simp [ih2 hl]
    · simp [eraseKey, h1, lookupKey, ih hnd.2]

theorem lookupKey_eraseKey_ne (l : Fields) (k key : String) (h : key ≠ k) :
    lookupKey (eraseKey l k) key = lookupKey l key := by
  have h' : ¬ (k = key) := fun hh => h hh.symm
  induction l with
  | nil => simp [eraseKey]
  | cons hd tl ih =>
    obtain ⟨k', v'⟩ := hd
    by_cases h1 : k' = k
    · subst h1
      simp [eraseKey, lookupKey, h']
    · simp [eraseKey, lookupKey, h1, ih]

/-! ## `fillScalars` lemmas -/

/-- Does the `key not in sec or sec.get(key) is None` test hold on a dict? -/
def needsDefault (fs : Fields) (key : String) : Bool :=
  match lookupKey fs key with
  | none => true
  | some v => isNull v

theorem shouldFill_obj (fs : Fields) (key : String) :
    shouldFill (.obj fs) key = .ok (needsDefault fs key) := by
  cases h : lookupKey fs key <;>
    simp [shouldFill, pyContainsKey, pyGetDefault, needsDefault, h, bindOk, pureOk]

theorem fillScalars_ok_obj (v : JSON) (k : String) (d : JSON)
    (rest : List (String × JSON)) (w : JSON)
    (h : fillScalars v ((k, d) :: rest) = .ok w) : ∃ fs, v = .obj fs := by
  cases v with
  | obj fs => exact ⟨fs, rfl⟩
  | null => simp [fillScalars, shouldFill, pyContainsKey, bindErr] at h
  | int n => simp [fillScalars, shouldFill, pyContainsKey, bindErr] at h
  | num q => simp [fillScalars, shouldFill, pyContainsKey, bindErr] at h
  | str s =>
    cases hc : pyInStr k s <;>
      simp [fillScalars, shouldFill, pyContainsKey, pyGetDefault, pySetItem, hc,
        bindOk, bindErr, pureOk] at h
  | list xs =>
    by_cases hc : k ∈ xs <;>
      simp [fillScalars, shouldFill, pyContainsKey, pyGetDefault, pySetItem, hc,
        bindOk, bindErr, pureOk] at h

theorem fillScalars_spec (defs : List (String × JSON)) :
    ∀ (fs : Fields) (w : JSON), (defs.map Prod.fst).Nodup →
    fillScalars (.obj fs) defs = .ok w →
    ∃ gs, w = .obj gs ∧
      (∀ key, key ∉ defs.map Prod.fst → lookupKey gs key = lookupKey fs key) ∧
      (∀ key dflt, (key, dflt) ∈ defs →
        (needsDefault fs key = true → lookupKey gs key = some dflt) ∧
        (needsDefault fs key = false → lookupKey gs key = lookupKey fs key)) := by
  induction defs with
  | nil =>
    intro fs w _ h
    refine ⟨fs, ?_, fun key _ => rfl, fun key dflt hmem => by simp at hmem⟩
    have h' : Except.ok (JSON.obj fs) = Except.ok w := h
    injection h' with h''
    exact h''.symm
  | cons hd tl ih =>
    rintro fs w hnd h
    obtain ⟨k, d⟩ := hd
    rw [List.map_cons, List.nodup_cons] at hnd
    simp only [fillScalars, shouldFill_obj, bindOk] at h
    cases hneed : needsDefault fs k with
    | true =>
      rw [hneed] at h
      simp only [if_pos rfl, pySetItem, bindOk] at h
      obtain ⟨gs, hw, hunt, hmem⟩ := ih (setKey fs k d) w hnd.2 h
      refine ⟨gs, hw, ?_, ?_⟩
      · intro key hkey
        rw [List.map_cons] at hkey
        have hk1 : key ≠ k := fun hh => hkey (hh ▸ List.mem_cons_self _ _)
        have hk2 : key ∉ tl.map Prod.fst := fun hh => hkey (List.mem_cons_of_mem _ hh)
        rw [hunt key hk2, lookupKey_setKey_ne _ _ _ _ hk1]
      · rintro key dflt hm
        rcases List.mem_cons.mp hm with heq | htl
        · rw [Prod.mk.injEq] at heq
          obtain ⟨rfl, rfl⟩ := heq
          refine ⟨fun _ => ?_, fun hf => absurd (hneed.symm.trans hf) (by decide)⟩
          rw [hunt key hnd.1, lookupKey_setKey_self]
        · have hne : key ≠ k := by
            intro hkk
            have hmm : key ∈ tl.map Prod.fst := List.mem_map.mpr ⟨(key, dflt), htl, rfl⟩
            exact hnd.1 (hkk ▸ hmm)
          have hlk : lookupKey (setKey fs k d) key = lookupKey fs key :=
            lookupKey_setKey_ne _ _ _ _ hne
          have hnd2 : needsDefault (setKey fs k d) key = needsDefault fs key := by
            simp [needsDefault, hlk]
          obtain ⟨h1, h2⟩ := hmem key dflt htl
          refine ⟨fun ht => h1 (by rw [hnd2, ht]), fun hf => ?_⟩
          rw [← hlk, h2 (by rw [hnd2, hf])]
    | false =>
      rw [hneed] at h
      simp only [Bool.false_eq_true, if_false, bindOk, pureOk] at h
      obtain ⟨gs, hw, hunt, hmem⟩ := ih fs w hnd.2 h
      refine ⟨gs, hw, ?_, ?_⟩
      · intro key hkey
        rw [List.map_cons] at hkey
        exact hunt key (fun hh => hkey (List.mem_cons_of_mem _ hh))
      · rintro key dflt hm
        rcases List.mem_cons.mp hm with heq | htl
        · rw [Prod.mk.injEq] at heq
          obtain ⟨rfl, rfl⟩ := heq
          exact ⟨fun ht => absurd (hneed.symm.trans ht) (by decide), fun _ => hunt key hnd.1⟩
        · exact hmem key dflt htl

theorem fillScalars_stable (defs : List (String × JSON)) :
    ∀ (gs : Fields),
    (∀ key dflt, (key, dflt) ∈ defs → needsDefault gs key = false) →
    fillScalars (.obj gs) defs = .ok (.obj gs) := by
  induction defs with
  | nil => intro gs _; rfl
  | cons hd tl ih =>
    intro gs h
    obtain ⟨k, d⟩ := hd
    simp only [fillScalars, shouldFill_obj, bindOk, h k d (List.mem_cons_self _ _),
      Bool.false_eq_true, if_false, bindOk, pureOk]
    exact ih gs (fun key dflt hm => h key dflt (List.mem_cons_of_mem _ hm))

theorem fillScalars_idem (defs : List (String × JSON)) (fs : Fields) (w : JSON)
    (hnd : (defs.map Prod.fst).Nodup)
    (hnn : ∀ key dflt, (key, dflt) ∈ defs → isNull dflt = false)
    (h : fillScalars (.obj fs) defs = .ok w) :
    fillScalars w defs = .ok w := by
  obtain ⟨gs, rfl, _, hmem⟩ := fillScalars_spec defs fs w hnd h
  apply fillScalars_stable
  intro key dflt hm
  obtain ⟨h1, h2⟩ := hmem key dflt hm
  cases hneed : needsDefault fs key with
  | true =>
    have h3 := h1 hneed
    unfold needsDefault
    rw [h3]
    exact hnn key dflt hm
  | false =>
    have h3 := h2 hneed
    unfold needsDefault at hneed ⊢
    rw [h3]
    exact hneed

/-! ## `fillSectionWith` lemmas -/

theorem fillSectionWith_ok (pre : Bool) (secKey : String)
    (body : JSON → Except Unit JSON) (data data' : Fields)
    (h : fillSectionWith pre secKey body data = .ok data') :
    ∃ v', body ((lookupKey data secKey).getD (.obj [])) = .ok v' ∧
      lookupKey data' secKey = some v' ∧
      ∀ k, k ≠ secKey → lookupKey data' k = lookupKey data k := by
  simp only [fillSectionWith] at h
  split at h
  case isTrue hcond =>
    have hview : (lookupKey data secKey).getD (.obj []) = .obj [] := by
      cases hl : lookupKey data secKey with
      | none => rfl
      | some x => rw [hl] at hcond; cases hcond.2
    rw [lookupKey_setKey_self] at h
    simp only [Option.getD_some] at h
    cases hb : body (.obj []) with
    | error e =>
      cases e
      rw [hb, bindErr] at h
      cases h
    | ok v' =>
      rw [hb, bindOk, pureOk] at h
      injection h with h
      subst h
      refine ⟨v', ?_, by rw [lookupKey_setKey_self], fun k hk => ?_⟩
      · rw [hview]
        exact hb
      · rw [lookupKey_setKey_ne _ _ _ _ hk, lookupKey_setKey_ne _ _ _ _ hk]
  case isFalse hcond =>
    cases hb : body ((lookupKey data secKey).getD (.obj [])) with
    | error e =>
      cases e
      rw [hb, bindErr] at h
      cases h
    | ok v' =>
      rw [hb, bindOk, pureOk] at h
      injection h with h
      subst h
      exact ⟨v', rfl, by rw [lookupKey_setKey_self],
        fun k hk => lookupKey_setKey_ne _ _ _ _ hk⟩

theorem fillSectionWith_stable (pre : Bool) (secKey : String)
    (body : JSON → Except Unit JSON) (b : Fields) (v : JSON)
    (hl : lookupKey b secKey = some v) (hb : body v = .ok v) :
    fillSectionWith pre secKey body b = .ok b := by
  have hn : (lookupKey b secKey).isNone = false := by rw [hl]; rfl
  have hcond : ¬ (pre = true ∧ (lookupKey b secKey).isNone = true) := by
    rintro ⟨_, h2⟩
    exact absurd (hn.symm.trans h2) (by decide)
  simp only [fillSectionWith]
  rw [if_neg hcond, hl]
  simp only [Option.getD_some, hb, bindOk, pureOk]
  rw [setKey_self_of_lookup _ _ _ hl]

/-! ## Inversion of the five-section fill chain -/

theorem fill_ok_parts (data d' : Fields)
    (h : fillMissingRequiredFields data = .ok d') :
    ∃ d1 d2 d3 d4,
      fillSectionWith false "policyholder" (fillScalars · policyholderDefaults) data = .ok d1 ∧
      fillSectionWith true "vehicle" (fillScalars · vehicleDefaults) d1 = .ok d2 ∧
      fillSectionWith true "coverage" coverageBody d2 = .ok d3 ∧
      fillSectionWith true "premiumAndDiscounts" premiumBody d3 = .ok d4 ∧
      fillSectionWith true "insurerAndPolicyDetails" insurerBody d4 = .ok d' := by
  unfold fillMissingRequiredFields at h
  cases h1 : fillSectionWith false "policyholder" (fillScalars · policyholderDefaults) data with
  | error e => cases e; rw [h1, bindErr] at h; cases h
  | ok d1 =>
  rw [h1, bindOk] at h
  cases h2 : fillSectionWith true "vehicle" (fillScalars · vehicleDefaults) d1 with
  | error e => cases e; rw [h2, bindErr] at h; cases h
  | ok d2 =>
  rw [h2, bindOk] at h
  cases h3 : fillSectionWith true "coverage" coverageBody d2 with
  | error e => cases e; rw [h3, bindErr] at h; cases h
  | ok d3 =>
  rw [h3, bindOk] at h
  cases h4 : fillSectionWith true "premiumAndDiscounts" premiumBody d3 with
  | error e => cases e; rw [h4, bindErr] at h; cases h
  | ok d4 =>
  rw [h4, bindOk] at h
  refine ⟨d1, d2, d3, d4, ?_, ?_, ?_, ?_, h⟩ <;> first | rfl | assumption

theorem setKey_setKey_self (l : Fields) (k : String) (v v' : JSON) :
    setKey (setKey l k v) k v' = setKey l k v' := by
  induction l with
  | nil => simp [setKey]
  | cons hd tl ih =>
    obtain ⟨k0, v0⟩ := hd
    by_cases h : k0 = k <;> simp [setKey, h, ih]

theorem setKey_map_fst (l : Fields) (k : String) (v : JSON) :
    (setKey l k v).map Prod.fst =
      if k ∈ l.map Prod.fst then l.map Prod.fst else l.map Prod.fst ++ [k] := by
  induction l with
  | nil => simp [setKey]
  | cons hd tl ih =>
    obtain ⟨k0, v0⟩ := hd
    by_cases h : k0 = k
    · subst h
      simp [setKey]
    · have h' : ¬ k = k0 := fun hh => h hh.symm
      by_cases h2 : k ∈ tl.map Prod.fst <;>
        simp [setKey, h, h', h2, ih]

theorem setKey_keys_nodup (l : Fields) (k : String) (v : JSON)
    (h : (l.map Prod.fst).Nodup) : ((setKey l k v).map Prod.fst).Nodup := by
  rw [setKey_map_fst]
  by_cases hc : k ∈ l.map Prod.fst
  · simpa [hc] using h
  · simp [hc, List.nodup_append, h]

/-! ## Section-body specifications -/

theorem coverage_scalar_key_ne (key : String) (dflt : JSON)
    (hm : (key, dflt) ∈ coverageScalarDefaults) :
    key ≠ "liabilityLimits" ∧ key ≠ "excess" := by
  simp only [coverageScalarDefaults, List.mem_cons, List.not_mem_nil, or_false] at hm
  rcases hm with h | h | h <;>
    (rw [Prod.mk.injEq] at h; obtain ⟨rfl, -⟩ := h; exact ⟨by decide, by decide⟩)

theorem coverageBody_spec (v w : JSON) (h : coverageBody v = .ok w) :
    ∃ fs gs ls ms, v = .obj fs ∧ w = .obj gs ∧
      (lookupKey fs "liabilityLimits").getD (.obj []) = .obj ls ∧
      lookupKey gs "liabilityLimits" = some (.obj ms) ∧
      (lookupKey gs "excess").isSome = true ∧
      (∀ key dflt, (key, dflt) ∈ coverageScalarDefaults →
        (needsDefault fs key = true → lookupKey gs key = some dflt) ∧
        (needsDefault fs key = false → lookupKey gs key = lookupKey fs key)) ∧
      (∀ key dflt, (key, dflt) ∈ liabilityDefaults →
        (needsDefault ls key = true → lookupKey ms key = some dflt) ∧
        (needsDefault ls key = false → lookupKey ms key = lookupKey ls key)) := by
  unfold coverageBody at h
  cases h1 : fillScalars v coverageScalarDefaults with
  | error e => cases e; rw [h1, bindErr] at h; cases h
  | ok v1 =>
  rw [h1, bindOk] at h
  have h1' : fillScalars v
      (("typeOfCover", JSON.str "UNKNOWN") ::
       ("limitationsOnUse", JSON.str "UNKNOWN - standard usage restrictions apply") ::
       [("authorizedDrivers", JSON.str "UNKNOWN - standard driver authorization applies")]) =
      .ok v1 := h1
  obtain ⟨fs, rfl⟩ := fillScalars_ok_obj _ _ _ _ _ h1'
  obtain ⟨gs1, rfl, hunt1, hmem1⟩ := fillScalars_spec coverageScalarDefaults fs v1 (by decide) h1
  have hllfs : lookupKey gs1 "liabilityLimits" = lookupKey fs "liabilityLimits" :=
    hunt1 "liabilityLimits" (by decide)
  have hexfs : lookupKey gs1 "excess" = lookupKey fs "excess" :=
    hunt1 "excess" (by decide)
  simp only [pyContainsKey, bindOk] at h
  -- the `if "liabilityLimits" not in data["coverage"]` ensure step
  cases hll : lookupKey gs1 "liabilityLimits" with
  | some x =>
    rw [hll] at h
    simp only [Option.isSome_some, if_true, bindOk, pureOk, pyGetItem, hll] at h
    cases h2 : fillScalars x liabilityDefaults with
    | error e => cases e; rw [h2, bindErr] at h; cases h
    | ok ll1 =>
    rw [h2, bindOk] at h
    have h2' : fillScalars x
        (("bodilyInjury", JSON.int 0) :: [("propertyDamage", JSON.int 0)]) = .ok ll1 := h2
    obtain ⟨ls, rfl⟩ := fillScalars_ok_obj _ _ _ _ _ h2'
    obtain ⟨ms, rfl, hunt2, hmem2⟩ := fillScalars_spec liabilityDefaults ls ll1 (by decide) h2
    simp only [pySetItem, bindOk] at h
    cases hex : lookupKey gs1 "excess" with
    | some y =>
      rw [lookupKey_setKey_ne _ _ _ _ (by decide : "excess" ≠ "liabilityLimits"), hex] at h
      simp only [Option.isSome_some, if_true, pureOk] at h
      injection h with h
      subst h
      refine ⟨fs, _, ls, ms, rfl, rfl, ?_, ?_, ?_, ?_, hmem2⟩
      · rw [← hllfs, hll]
        rfl
      · rw [lookupKey_setKey_self]
      · rw [lookupKey_setKey_ne _ _ _ _ (by decide : "excess" ≠ "liabilityLimits"), hex]
        rfl
      · intro key dflt hm
        obtain ⟨hk1, hk2⟩ := coverage_scalar_key_ne key dflt hm
        rw [lookupKey_setKey_ne _ _ _ _ hk1]
        exact hmem1 key dflt hm
    | none =>
      rw [lookupKey_setKey_ne _ _ _ _ (by decide : "excess" ≠ "liabilityLimits"), hex] at h
      simp only [Option.isSome_none, Bool.false_eq_true, if_false, pySetItem, pureOk] at h
      injection h with h
      subst h
      refine ⟨fs, _, ls, ms, rfl, rfl, ?_, ?_, ?_, ?_, hmem2⟩
      · rw [← hllfs, hll]
        rfl
      · rw [lookupKey_setKey_ne _ _ _ _ (by decide : "liabilityLimits" ≠ "excess"),
          lookupKey_setKey_self]
      · rw [lookupKey_setKey_self]
        rfl
      · intro key dflt hm
        obtain ⟨hk1, hk2⟩ := coverage_scalar_key_ne key dflt hm
        rw [lookupKey_setKey_ne _ _ _ _ hk2, lookupKey_setKey_ne _ _ _ _ hk1]
        exact hmem1 key dflt hm
  | none =>
    rw [hll] at h
    simp only [Option.isSome_none, Bool.false_eq_true, if_false, bindOk, pureOk,
      pySetItem, pyGetItem, lookupKey_setKey_self] at h
    cases h2 : fillScalars (JSON.obj []) liabilityDefaults with
    | error e => cases e; rw [h2, bindErr] at h; cases h
    | ok ll1 =>
    rw [h2, bindOk] at h
    obtain ⟨ms, rfl, hunt2, hmem2⟩ := fillScalars_spec liabilityDefaults [] ll1 (by decide) h2
    simp only [pySetItem, bindOk, setKey_setKey_self] at h
    cases hex : lookupKey gs1 "excess" with
    | some y =>
      rw [lookupKey_setKey_ne _ _ _ _ (by decide : "excess" ≠ "liabilityLimits"), hex] at h
      simp only [Option.isSome_some, if_true, pureOk] at h
      injection h with h
      subst h
      refine ⟨fs, _, [], ms, rfl, rfl, ?_, ?_, ?_, ?_, hmem2⟩
      · rw [← hllfs, hll]
        rfl
      · rw [lookupKey_setKey_self]
      · rw [lookupKey_setKey_ne _ _ _ _ (by decide : "excess" ≠ "liabilityLimits"), hex]
        rfl
      · intro key dflt hm
        obtain ⟨hk1, hk2⟩ := coverage_scalar_key_ne key dflt hm
        rw [lookupKey_setKey_ne _ _ _ _ hk1]
        exact hmem1 key dflt hm
    | none =>
      rw [lookupKey_setKey_ne _ _ _ _ (by decide : "excess" ≠ "liabilityLimits"), hex] at h
      simp only [Option.isSome_none, Bool.false_eq_true, if_false, pySetItem, pureOk] at h
      injection h with h
      subst h
      refine ⟨fs, _, [], ms, rfl, rfl, ?_, ?_, ?_, ?_, hmem2⟩
      · rw [← hllfs, hll]
        rfl
      · rw [lookupKey_setKey_ne _ _ _ _ (by decide : "liabilityLimits" ≠ "excess"),
          lookupKey_setKey_self]
      · rw [lookupKey_setKey_self]
        rfl
      · intro key dflt hm
        obtain ⟨hk1, hk2⟩ := coverage_scalar_key_ne key dflt hm
        rw [lookupKey_setKey_ne _ _ _ _ hk2, lookupKey_setKey_ne _ _ _ _ hk1]
        exact hmem1 key dflt hm

theorem premium_scalar_key_ne (key : String) (dflt : JSON)
    (hm : (key, dflt) ∈ premiumDefaults) : key ≠ "levies" := by
  simp only [premiumDefaults, List.mem_cons, List.not_mem_nil, or_false] at hm
  rcases hm with h | h | h <;>
    (rw [Prod.mk.injEq] at h; obtain ⟨rfl, -⟩ := h; exact by decide)

theorem fillScalars_keys_nodup (defs : List (String × JSON)) :
    ∀ (fs gs : Fields), (fs.map Prod.fst).Nodup →
    fillScalars (.obj fs) defs = .ok (.obj gs) → (gs.map Prod.fst).Nodup := by
  induction defs with
  | nil =>
    intro fs gs hnd h
    have h' : Except.ok (JSON.obj fs) = Except.ok (JSON.obj gs) := h
    injection h' with h''
    injection h'' with h''
    exact h'' ▸ hnd
  | cons hd tl ih =>
    intro fs gs hnd h
    obtain ⟨k, d⟩ := hd
    simp only [fillScalars, shouldFill_obj, bindOk] at h
    cases hneed : needsDefault fs k with
    | true =>
      rw [hneed] at h
      simp only [if_pos rfl, pySetItem, bindOk] at h
      exact ih (setKey fs k d) gs (setKey_keys_nodup fs k d hnd) h
    | false =>
      rw [hneed] at h
      simp only [Bool.false_eq_true, if_false, bindOk, pureOk] at h
      exact ih fs gs hnd h

/-- The backfill of one levy member: a present `None` becomes `0.0`. -/
def backfillLevy (L : Fields) (key : String) : Fields :=
  match lookupKey L key with
  | some .null => setKey L key (.num 0)
  | _ => L

theorem backfillLevy_lookup_ne (L : Fields) (key k : String) (h : k ≠ key) :
    lookupKey (backfillLevy L key) k = lookupKey L k := by
  unfold backfillLevy
  cases hl : lookupKey L key with
  | none => rfl
  | some x =>
    cases x <;> first
      | rfl
      | exact lookupKey_setKey_ne _ _ _ _ h

theorem backfillLevy_keys (L : Fields) (key : String) :
    ((backfillLevy L key).map Prod.fst).Nodup ↔ (L.map Prod.fst).Nodup := by
  unfold backfillLevy
  cases hl : lookupKey L key with
  | none => rfl
  | some x =>
    cases x <;> try rfl
    case null =>
      constructor
      · intro h
        have hk : key ∈ L.map Prod.fst := by
          clear h
          induction L with
          | nil => simp [lookupKey] at hl
          | cons hd tl ih =>
            obtain ⟨k0, v0⟩ := hd
            by_cases h0 : k0 = key
            · simp [h0]
            · simp only [lookupKey, if_neg h0] at hl
              simp [ih hl]
        rw [setKey_map_fst, if_pos hk] at h
        exact h
      · intro h
        exact setKey_keys_nodup L key (.num 0) h

theorem isNull_iff (x : JSON) : isNull x = true ↔ x = .null := by
  cases x <;> simp [isNull]

theorem lookupKey_some_ne_nil (l : Fields) (k : String) (x : JSON)
    (h : lookupKey l k = some x) : l ≠ [] := by
  intro he
  subst he
  simp [lookupKey] at h

theorem pyTruthy_obj_of_ne_nil (l : Fields) (h : l ≠ []) :
    pyTruthy (.obj l) = true := by
  cases l with
  | nil => exact absurd rfl h
  | cons hd tl => simp [pyTruthy]

theorem backfillLevy_of_none (L : Fields) (key : String)
    (hl : lookupKey L key = none) : backfillLevy L key = L := by
  unfold backfillLevy
  rw [hl]

theorem backfillLevy_of_null (L : Fields) (key : String)
    (hl : lookupKey L key = some .null) : backfillLevy L key = setKey L key (.num 0) := by
  unfold backfillLevy
  rw [hl]

theorem backfillLevy_of_notnull (L : Fields) (key : String) (m : JSON)
    (hl : lookupKey L key = some m) (hm : isNull m = false) : backfillLevy L key = L := by
  unfold backfillLevy
  rw [hl]
  cases m <;> simp_all [isNull]

theorem backfillLevy_ne_nil (L : Fields) (key : String) (h : L ≠ []) :
    backfillLevy L key ≠ [] := by
  unfold backfillLevy
  cases hl : lookupKey L key with
  | none => exact h
  | some x =>
    cases x <;> try exact h
    cases L with
    | nil => simp [lookupKey] at hl
    | cons hd tl =>
      obtain ⟨k0, v0⟩ := hd
      by_cases h0 : k0 = key <;> simp [setKey, h0]

/-- A levies member statement on a dict computes the member backfill. -/
theorem leviesMember_obj (L : Fields) (key : String) :
    leviesMember (.obj L) key = .ok (.obj (backfillLevy L key)) := by
  unfold leviesMember
  cases hl : lookupKey L key with
  | none =>
    rw [backfillLevy_of_none L key hl]
    simp [pyContainsKey, hl, bindOk, pureOk]
  | some m =>
    cases hn : isNull m with
    | true =>
      rw [isNull_iff] at hn
      subst hn
      rw [backfillLevy_of_null L key hl]
      simp [pyContainsKey, hl, pyGetItem, pySetItem, bindOk, pureOk, isNull]
    | false =>
      rw [backfillLevy_of_notnull L key m hl hn]
      simp [pyContainsKey, hl, pyGetItem, bindOk, pureOk, hn]

theorem backfillLevy_lookup_self (L : Fields) (key : String) :
    lookupKey (backfillLevy L key) key =
      match lookupKey L key with
      | some .null => some (.num 0)
      | o => o := by
  unfold backfillLevy
  cases hl : lookupKey L key with
  | none => exact hl
  | some x => cases x <;> simp [hl, lookupKey_setKey_self]

/-- Forward computation of the levies paragraph on a dict section whose
`levies` member is a dict `L`: null members are backfilled to `0.0` first,
and the levies object is removed exactly when neither member key is
present. -/
theorem leviesCleanup_obj (gs1 L : Fields)
    (hlev : lookupKey gs1 "levies" = some (.obj L)) :
    leviesCleanup (.obj gs1) = .ok (.obj
      (if ((lookupKey L "mib").isNone && (lookupKey L "ia").isNone) = true
       then eraseKey gs1 "levies"
       else setKey gs1 "levies" (.obj (backfillLevy (backfillLevy L "mib") "ia")))) := by
  unfold leviesCleanup
  rw [show pyContainsKey (.obj gs1) "levies" = .ok true by simp [pyContainsKey, hlev]]
  rw [bindOk]
  simp only [Bool.not_true, Bool.false_eq_true, if_false,
    show pyGetItem (.obj gs1) "levies" = .ok (.obj L) by simp [pyGetItem, hlev], bindOk]
  rw [leviesMember_obj L "mib", bindOk, leviesMember_obj (backfillLevy L "mib") "ia", bindOk]
  cases hm : lookupKey L "mib" with
  | none =>
    rw [backfillLevy_of_none L "mib" hm]
    cases hi : lookupKey L "ia" with
    | none =>
      rw [backfillLevy_of_none L "ia" hi]
      simp only [Option.isNone_none, Bool.and_self, if_pos rfl]
      by_cases hL : L = []
      · subst hL
        simp [pyTruthy, pureOk]
      · rw [if_neg (show ¬ ¬ (pyTruthy (.obj L) = true) by
          simp [pyTruthy_obj_of_ne_nil L hL])]
        simp only [pyGetDefault, bindOk, hm, hi, Option.getD_none]
        rw [if_pos ⟨rfl, rfl⟩]
        simp [pureOk]
    | some n =>
      simp only [Option.isNone_none, Option.isNone_some, Bool.true_and,
        Bool.false_eq_true, if_false]
      have h2ia : ∃ y, lookupKey (backfillLevy L "ia") "ia" = some y ∧ isNull y = false := by
        rw [backfillLevy_lookup_self L "ia", hi]
        cases n <;> simp [isNull]
      obtain ⟨y, hy, hynn⟩ := h2ia
      have h2mib : lookupKey (backfillLevy L "ia") "mib" = none := by
        rw [backfillLevy_lookup_ne L "ia" "mib" (by decide), hm]
      have hne : backfillLevy L "ia" ≠ [] := lookupKey_some_ne_nil _ _ _ hy
      rw [if_neg (by simp [pyTruthy_obj_of_ne_nil _ hne])]
      simp only [pyGetDefault, bindOk, h2mib, hy, Option.getD_none, Option.getD_some]
      rw [if_neg (fun hx => absurd (hynn.symm.trans hx.2) (by decide))]
      simp [pySetItem]
  | some m =>
    have h1mib : ∃ y, lookupKey (backfillLevy L "mib") "mib" = some y ∧ isNull y = false := by
      rw [backfillLevy_lookup_self L "mib", hm]
      cases m <;> simp [isNull]
    obtain ⟨y, hy1, hynn⟩ := h1mib
    have h2mib : lookupKey (backfillLevy (backfillLevy L "mib") "ia") "mib" = some y := by
      rw [backfillLevy_lookup_ne _ "ia" "mib" (by decide)]
      exact hy1
    simp only [Option.isNone_some, Bool.false_and, Bool.false_eq_true, if_false]
    have hne : backfillLevy (backfillLevy L "mib") "ia" ≠ [] :=
      lookupKey_some_ne_nil _ _ _ h2mib
    rw [if_neg (by simp [pyTruthy_obj_of_ne_nil _ hne])]
    simp only [pyGetDefault, bindOk, h2mib, Option.getD_some]
    rw [if_neg (fun hx => absurd (hynn.symm.trans hx.1) (by decide))]
    simp [pySetItem]

theorem leviesCleanup_frame (gs1 : Fields) (w : JSON)
    (h : leviesCleanup (.obj gs1) = .ok w) :
    ∃ gs, w = .obj gs ∧ ∀ k, k ≠ "levies" → lookupKey gs k = lookupKey gs1 k := by
  cases hlev : lookupKey gs1 "levies" with
  | none =>
    unfold leviesCleanup at h
    simp only [pyContainsKey, hlev, Option.isSome_none, bindOk, Bool.not_false,
      if_pos rfl, pureOk] at h
    injection h with h
    exact ⟨gs1, h.symm, fun k _ => rfl⟩
  | some lev0 =>
    unfold leviesCleanup at h
    simp only [pyContainsKey, hlev, Option.isSome_some, bindOk, Bool.not_true,
      Bool.false_eq_true, if_false, pyGetItem] at h
    cases lev0 with
    | obj L =>
      have hobj : leviesCleanup (.obj gs1) = .ok w := by
        unfold leviesCleanup
        simp only [pyContainsKey, hlev, Option.isSome_some, bindOk, Bool.not_true,
          Bool.false_eq_true, if_false, pyGetItem]
        exact h
      rw [leviesCleanup_obj gs1 L hlev] at hobj
      injection hobj with hobj
      by_cases hc : ((lookupKey L "mib").isNone && (lookupKey L "ia").isNone) = true
      · rw [if_pos hc] at hobj
        exact ⟨_, hobj.symm, fun k hk => lookupKey_eraseKey_ne _ _ _ hk⟩
      · rw [if_neg hc] at hobj
        exact ⟨_, hobj.symm, fun k hk => lookupKey_setKey_ne _ _ _ _ hk⟩
    | str s =>
      have hstr : ∀ key, leviesMember (.str s) key =
          (if pyInStr key s = true then .error () else .ok (.str s)) := by
        intro key
        unfold leviesMember
        cases hc : pyInStr key s <;>
          simp [pyContainsKey, pyGetItem, hc, bindOk, bindErr, pureOk]
      rw [hstr "mib"] at h
      cases hc1 : pyInStr "mib" s with
      | true =>
        rw [hc1] at h
        simp only [eq_self_iff_true, if_true, bindErr] at h
        exact Except.noConfusion h
      | false =>
      rw [hc1] at h
      simp only [Bool.false_eq_true, if_false, bindOk] at h
      rw [hstr "ia"] at h
      cases hc2 : pyInStr "ia" s with
      | true =>
        rw [hc2] at h
        simp only [eq_self_iff_true, if_true, bindErr] at h
        exact Except.noConfusion h
      | false =>
      rw [hc2] at h
      simp only [Bool.false_eq_true, if_false, bindOk] at h
      by_cases hs : s = ""
      · subst hs
        rw [if_pos (by simp [pyTruthy])] at h
        injection h with h
        exact ⟨_, h.symm, fun k hk => lookupKey_eraseKey_ne _ _ _ hk⟩
      · rw [if_neg (by simp [pyTruthy, hs])] at h
        simp only [pyGetDefault, bindErr] at h
        exact Except.noConfusion h
    | list xs =>
      have hlst : ∀ key, leviesMember (.list xs) key =
          (if xs.contains key = true then .error () else .ok (.list xs)) := by
        intro key
        unfold leviesMember
        rw [show pyContainsKey (JSON.list xs) key = .ok (xs.contains key) from rfl, bindOk]
        cases hc : xs.contains key
        · simp only [Bool.false_eq_true, if_false]
          rfl
        · simp only [eq_self_iff_true, if_true, pyGetItem, bindErr]
      rw [hlst "mib"] at h
      cases hc1 : xs.contains "mib" with
      | true =>
        rw [hc1] at h
        simp only [eq_self_iff_true, if_true, bindErr] at h
        exact Except.noConfusion h
      | false =>
      rw [hc1] at h
      simp only [Bool.false_eq_true, if_false, bindOk] at h
      rw [hlst "ia"] at h
      cases hc2 : xs.contains "ia" with
      | true =>
        rw [hc2] at h
        simp only [eq_self_iff_true, if_true, bindErr] at h
        exact Except.noConfusion h
      | false =>
      rw [hc2] at h
      simp only [Bool.false_eq_true, if_false, bindOk] at h
      by_cases hx : xs = []
      · subst hx
        rw [if_pos (by simp [pyTruthy])] at h
        injection h with h
        exact ⟨_, h.symm, fun k hk => lookupKey_eraseKey_ne _ _ _ hk⟩
      · rw [if_neg (by simp [pyTruthy, hx])] at h
        simp only [pyGetDefault, bindErr] at h
        exact Except.noConfusion h
    | null =>
      simp only [leviesMember, pyContainsKey, bindErr] at h
      exact Except.noConfusion h
    | int n =>
      simp only [leviesMember, pyContainsKey, bindErr] at h
      exact Except.noConfusion h
    | num q =>
      simp only [leviesMember, pyContainsKey, bindErr] at h
      exact Except.noConfusion h

theorem premiumBody_spec (v w : JSON) (h : premiumBody v = .ok w) :
    ∃ fs gs, v = .obj fs ∧ w = .obj gs ∧
      (∀ key dflt, (key, dflt) ∈ premiumDefaults →
        (needsDefault fs key = true → lookupKey gs key = some dflt) ∧
        (needsDefault fs key = false → lookupKey gs key = lookupKey fs key)) ∧
      (∀ L, (fs.map Prod.fst).Nodup → lookupKey fs "levies" = some (.obj L) →
        lookupKey gs "levies" =
          (if ((lookupKey L "mib").isNone && (lookupKey L "ia").isNone) = true
           then none
           else some (.obj (backfillLevy (backfillLevy L "mib") "ia")))) := by
  unfold premiumBody at h
  cases h1 : fillScalars v premiumDefaults with
  | error e => cases e; rw [h1, bindErr] at h; cases h
  | ok v1 =>
  rw [h1, bindOk] at h
  have h1' : fillScalars v
      (("premiumAmount", JSON.num 0) :: ("totalPayable", JSON.num 0) ::
       [("noClaimDiscount", JSON.num 0)]) = .ok v1 := h1
  obtain ⟨fs, rfl⟩ := fillScalars_ok_obj _ _ _ _ _ h1'
  obtain ⟨gs1, rfl, hunt1, hmem1⟩ := fillScalars_spec premiumDefaults fs v1 (by decide) h1
  obtain ⟨gs, rfl, hframe⟩ := leviesCleanup_frame gs1 w h
  refine ⟨fs, gs, rfl, rfl, ?_, ?_⟩
  · intro key dflt hm
    have hk := premium_scalar_key_ne key dflt hm
    obtain ⟨hA, hB⟩ := hmem1 key dflt hm
    exact ⟨fun ht => (hframe key hk).trans (hA ht),
      fun hf => (hframe key hk).trans (hB hf)⟩
  · intro L hnd hfsL
    have hlev : lookupKey gs1 "levies" = some (.obj L) := by
      rw [hunt1 "levies" (by decide)]
      exact hfsL
    rw [leviesCleanup_obj gs1 L hlev] at h
    injection h with h
    injection h with h
    by_cases hc : ((lookupKey L "mib").isNone && (lookupKey L "ia").isNone) = true
    · rw [if_pos hc] at h
      rw [if_pos hc, ← h]
      exact lookupKey_eraseKey_self gs1 "levies"
        (fillScalars_keys_nodup premiumDefaults fs gs1 hnd h1)
    · rw [if_neg hc] at h
      rw [if_neg hc, ← h]
      exact lookupKey_setKey_self _ _ _

theorem insurer_scalar_key_ne (key : String) (dflt : JSON)
    (hm : (key, dflt) ∈ insurerScalarDefaults) : key ≠ "periodOfInsurance" := by
  simp only [insurerScalarDefaults, List.mem_cons, List.not_mem_nil, or_false] at hm
  rcases hm with h | h <;>
    (rw [Prod.mk.injEq] at h; obtain ⟨rfl, -⟩ := h; exact by decide)

theorem insurerBody_spec (v w : JSON) (h : insurerBody v = .ok w) :
    ∃ fs gs ps ms, v = .obj fs ∧ w = .obj gs ∧
      (lookupKey fs "periodOfInsurance").getD (.obj []) = .obj ps ∧
      lookupKey gs "periodOfInsurance" = some (.obj ms) ∧
      (∀ key dflt, (key, dflt) ∈ insurerScalarDefaults →
        (needsDefault fs key = true → lookupKey gs key = some dflt) ∧
        (needsDefault fs key = false → lookupKey gs key = lookupKey fs key)) ∧
      (∀ key dflt, (key, dflt) ∈ periodDefaults →
        (needsDefault ps key = true → lookupKey ms key = some dflt) ∧
        (needsDefault ps key = false → lookupKey ms key = lookupKey ps key)) := by
  unfold insurerBody at h
  cases v with
  | obj fs =>
    simp only [pyContainsKey, bindOk] at h
    cases hpoi : lookupKey fs "periodOfInsurance" with
    | some x =>
      rw [hpoi] at h
      simp only [Option.isSome_some, if_true, bindOk, pureOk] at h
      cases h1 : fillScalars (.obj fs) insurerScalarDefaults with
      | error e => cases e; rw [h1, bindErr] at h; cases h
      | ok v1 =>
      rw [h1, bindOk] at h
      obtain ⟨gs1, rfl, hunt1, hmem1⟩ :=
        fillScalars_spec insurerScalarDefaults fs v1 (by decide) h1
      have hpoi1 : lookupKey gs1 "periodOfInsurance" = some x := by
        rw [hunt1 "periodOfInsurance" (by decide)]
        exact hpoi
      simp only [pyGetItem, hpoi1, bindOk] at h
      cases h2 : fillScalars x periodDefaults with
      | error e => cases e; rw [h2, bindErr] at h; cases h
      | ok poi1 =>
      rw [h2, bindOk] at h
      have h2' : fillScalars x
          (("start", JSON.str "UNKNOWN") :: [("end", JSON.str "UNKNOWN")]) = .ok poi1 := h2
      obtain ⟨ps, rfl⟩ := fillScalars_ok_obj _ _ _ _ _ h2'
      obtain ⟨ms, rfl, hunt2, hmem2⟩ := fillScalars_spec periodDefaults ps poi1 (by decide) h2
      have h' : Except.ok (JSON.obj (setKey gs1 "periodOfInsurance" (JSON.obj ms))) =
          Except.ok w := h
      injection h' with h'
      subst h'
      refine ⟨fs, _, ps, ms, rfl, rfl, by rw [hpoi]; rfl, by rw [lookupKey_setKey_self], ?_, hmem2⟩
      intro key dflt hm
      have hk := insurer_scalar_key_ne key dflt hm
      obtain ⟨hA, hB⟩ := hmem1 key dflt hm
      exact ⟨fun ht => (lookupKey_setKey_ne _ _ _ _ hk).trans (hA ht),
        fun hf => (lookupKey_setKey_ne _ _ _ _ hk).trans (hB hf)⟩
    | none =>
      rw [hpoi] at h
      simp only [Option.isSome_none, Bool.false_eq_true, if_false, pySetItem,
        bindOk, pureOk] at h
      cases h1 : fillScalars (.obj (setKey fs "periodOfInsurance" (.obj [])))
          insurerScalarDefaults with
      | error e => cases e; rw [h1, bindErr] at h; cases h
      | ok v1 =>
      rw [h1, bindOk] at h
      obtain ⟨gs1, rfl, hunt1, hmem1⟩ :=
        fillScalars_spec insurerScalarDefaults (setKey fs "periodOfInsurance" (.obj [])) v1
          (by decide) h1
      have hpoi1 : lookupKey gs1 "periodOfInsurance" = some (.obj []) := by
        rw [hunt1 "periodOfInsurance" (by decide), lookupKey_setKey_self]
      simp only [pyGetItem, hpoi1, bindOk] at h
      cases h2 : fillScalars (JSON.obj []) periodDefaults with
      | error e => cases e; rw [h2, bindErr] at h; cases h
      | ok poi1 =>
      rw [h2, bindOk] at h
      obtain ⟨ms, rfl, hunt2, hmem2⟩ := fillScalars_spec periodDefaults [] poi1 (by decide) h2
      have h' : Except.ok (JSON.obj (setKey gs1 "periodOfInsurance" (JSON.obj ms))) =
          Except.ok w := h
      injection h' with h'
      subst h'
      refine ⟨fs, _, [], ms, rfl, rfl, by rw [hpoi]; rfl, by rw [lookupKey_setKey_self], ?_, hmem2⟩
      intro key dflt hm
      have hk := insurer_scalar_key_ne key dflt hm
      obtain ⟨hA, hB⟩ := hmem1 key dflt hm
      have hfs : lookupKey (setKey fs "periodOfInsurance" (.obj [])) key = lookupKey fs key :=
        lookupKey_setKey_ne _ _ _ _ hk
      have hneed : needsDefault (setKey fs "periodOfInsurance" (.obj [])) key =
          needsDefault fs key := by
        simp [needsDefault, hfs]
      refine ⟨fun ht => (lookupKey_setKey_ne _ _ _ _ hk).trans (hA (by rw [hneed, ht])),
        fun hf => ?_⟩
      rw [lookupKey_setKey_ne _ _ _ _ hk, hB (by rw [hneed, hf]), hfs]
  | null =>
    simp only [pyContainsKey, bindErr] at h
    exact Except.noConfusion h
  | int n =>
    simp only [pyContainsKey, bindErr] at h
    exact Except.noConfusion h
  | num q =>
    simp only [pyContainsKey, bindErr] at h
    exact Except.noConfusion h
  | str s =>
    simp only [pyContainsKey, bindOk] at h
    cases hc : pyInStr "periodOfInsurance" s with
    | true =>
      rw [hc] at h
      simp only [eq_self_iff_true, if_true, bindOk, pureOk] at h
      cases h1 : fillScalars (.str s) insurerScalarDefaults with
      | error e => cases e; rw [h1, bindErr] at h; cases h
      | ok v1 =>
        obtain ⟨fs, hfs⟩ := fillScalars_ok_obj _ _ _ _ _
          (show fillScalars (.str s) (("insurerName", JSON.str "UNKNOWN") ::
            [("policyNumber", JSON.str "UNKNOWN")]) = .ok v1 from h1)
        cases hfs
    | false =>
      rw [hc] at h
      simp only [Bool.false_eq_true, if_false, pySetItem, bindErr] at h
      exact Except.noConfusion h
  | list xs =>
    simp only [pyContainsKey, bindOk] at h
    by_cases hc : "periodOfInsurance" ∈ xs
    · rw [if_pos (by simp [hc])] at h
      simp only [bindOk, pureOk] at h
      cases h1 : fillScalars (.list xs) insurerScalarDefaults with
      | error e => cases e; rw [h1, bindErr] at h; cases h
      | ok v1 =>
        obtain ⟨fs, hfs⟩ := fillScalars_ok_obj _ _ _ _ _
          (show fillScalars (.list xs) (("insurerName", JSON.str "UNKNOWN") ::
            [("policyNumber", JSON.str "UNKNOWN")]) = .ok v1 from h1)
        cases hfs
    · rw [if_neg (by simp [hc])] at h
      simp only [pySetItem, bindErr] at h
      exact Except.noConfusion h

/-! ## Idempotence of the section bodies -/

theorem needsDefault_false_of_memprops (fs gs : Fields) (key : String) (dflt : JSON)
    (hd : isNull dflt = false)
    (h1 : needsDefault fs key = true → lookupKey gs key = some dflt)
    (h2 : needsDefault fs key = false → lookupKey gs key = lookupKey fs key) :
    needsDefault gs key = false := by
  cases hneed : needsDefault fs key with
  | false =>
    unfold needsDefault at hneed ⊢
    rw [h2 hneed]
    exact hneed
  | true =>
    unfold needsDefault
    rw [h1 hneed]
    exact hd

theorem backfilled_good (L : Fields) (key : String) :
    lookupKey (backfillLevy L key) key = none ∨
    ∃ y, lookupKey (backfillLevy L key) key = some y ∧ isNull y = false := by
  rw [backfillLevy_lookup_self]
  cases hl : lookupKey L key with
  | none => exact Or.inl rfl
  | some m => cases m <;> simp [isNull]

theorem backfilled_isNone (L : Fields) (key : String) :
    (lookupKey (backfillLevy L key) key).isNone = (lookupKey L key).isNone := by
  rw [backfillLevy_lookup_self]
  cases hl : lookupKey L key with
  | none => rfl
  | some m => cases m <;> rfl

theorem leviesCleanup_none (gs : Fields) (h : lookupKey gs "levies" = none) :
    leviesCleanup (.obj gs) = .ok (.obj gs) := by
  unfold leviesCleanup
  simp [pyContainsKey, h, bindOk, pureOk]

theorem leviesCleanup_idem (gs1 : Fields) (w : JSON)
    (hnd : (gs1.map Prod.fst).Nodup)
    (h : leviesCleanup (.obj gs1) = .ok w) : leviesCleanup w = .ok w := by
  have herase : leviesCleanup (.obj (eraseKey gs1 "levies")) =
      .ok (.obj (eraseKey gs1 "levies")) :=
    leviesCleanup_none _ (lookupKey_eraseKey_self gs1 "levies" hnd)
  cases hlev : lookupKey gs1 "levies" with
  | none =>
    rw [leviesCleanup_none gs1 hlev] at h
    injection h with h
    subst h
    exact leviesCleanup_none gs1 hlev
  | some lev0 =>
    cases lev0 with
    | obj L =>
      rw [leviesCleanup_obj gs1 L hlev] at h
      injection h with h
      subst h
      by_cases hc : ((lookupKey L "mib").isNone && (lookupKey L "ia").isNone) = true
      · rw [if_pos hc]
        exact herase
      · rw [if_neg hc]
        have hself : lookupKey (setKey gs1 "levies"
            (.obj (backfillLevy (backfillLevy L "mib") "ia"))) "levies" =
            some (.obj (backfillLevy (backfillLevy L "mib") "ia")) :=
          lookupKey_setKey_self _ _ _
        rw [leviesCleanup_obj _ _ hself]
        have hmib2 : lookupKey (backfillLevy (backfillLevy L "mib") "ia") "mib" =
            lookupKey (backfillLevy L "mib") "mib" :=
          backfillLevy_lookup_ne _ "ia" "mib" (by decide)
        have hia1 : lookupKey (backfillLevy L "mib") "ia" = lookupKey L "ia" :=
          backfillLevy_lookup_ne _ "mib" "ia" (by decide)
        have hc2 : (((lookupKey (backfillLevy (backfillLevy L "mib") "ia") "mib").isNone &&
            (lookupKey (backfillLevy (backfillLevy L "mib") "ia") "ia").isNone)) = false := by
          rw [hmib2, backfilled_isNone, backfilled_isNone, hia1]
          exact Bool.not_eq_true _ ▸ (by simpa using hc)
        rw [if_neg (by rw [hc2]; exact by decide)]
        have hbm : backfillLevy (backfillLevy (backfillLevy L "mib") "ia") "mib" =
            backfillLevy (backfillLevy L "mib") "ia" := by
          rcases backfilled_good L "mib" with hg | ⟨y, hy, hyn⟩
          · exact backfillLevy_of_none _ _ (hmib2.trans hg)
          · exact backfillLevy_of_notnull _ _ y (hmib2.trans hy) hyn
        rw [hbm]
        have hbi : backfillLevy (backfillLevy (backfillLevy L "mib") "ia") "ia" =
            backfillLevy (backfillLevy L "mib") "ia" := by
          rcases backfilled_good (backfillLevy L "mib") "ia" with hg | ⟨y, hy, hyn⟩
          · exact backfillLevy_of_none _ _ hg
          · exact backfillLevy_of_notnull _ _ y hy hyn
        rw [hbi, setKey_setKey_self]
    | str s =>
      -- only the empty string survives (both membership tests false, falsy)
      unfold leviesCleanup at h
      simp only [pyContainsKey, hlev, Option.isSome_some, bindOk, Bool.not_true,
        Bool.false_eq_true, if_false, pyGetItem] at h
      have hstr : ∀ key, leviesMember (.str s) key =
          (if pyInStr key s = true then .error () else .ok (.str s)) := by
        intro key
        unfold leviesMember
        cases hcx : pyInStr key s <;>
          simp [pyContainsKey, pyGetItem, hcx, bindOk, bindErr, pureOk]
      rw [hstr "mib"] at h
      cases hc1 : pyInStr "mib" s with
      | true =>
        rw [hc1] at h
        simp only [eq_self_iff_true, if_true, bindErr] at h
        exact Except.noConfusion h
      | false =>
      rw [hc1] at h
      simp only [Bool.false_eq_true, if_false, bindOk] at h
      rw [hstr "ia"] at h
      cases hc2 : pyInStr "ia" s with
      | true =>
        rw [hc2] at h
        simp only [eq_self_iff_true, if_true, bindErr] at h
        exact Except.noConfusion h
      | false =>
      rw [hc2] at h
      simp only [Bool.false_eq_true, if_false, bindOk] at h
      by_cases hs : s = ""
      · subst hs
        rw [if_pos (by simp [pyTruthy])] at h
        injection h with h
        subst h
        exact herase
      · rw [if_neg (by simp [pyTruthy, hs])] at h
        simp only [pyGetDefault, bindErr] at h
        exact Except.noConfusion h
    | list xs =>
      unfold leviesCleanup at h
      simp only [pyContainsKey, hlev, Option.isSome_some, bindOk, Bool.not_true,
        Bool.false_eq_true, if_false, pyGetItem] at h
      have hlst : ∀ key, leviesMember (.list xs) key =
          (if xs.contains key = true then .error () else .ok (.list xs)) := by
        intro key
        unfold leviesMember
        rw [show pyContainsKey (JSON.list xs) key = .ok (xs.contains key) from rfl, bindOk]
        cases hcx : xs.contains key
        · simp only [Bool.false_eq_true, if_false]
          rfl
        · simp only [eq_self_iff_true, if_true, pyGetItem, bindErr]
      rw [hlst "mib"] at h
      cases hc1 : xs.contains "mib" with
      | true =>
        rw [hc1] at h
        simp only [eq_self_iff_true, if_true, bindErr] at h
        exact Except.noConfusion h
      | false =>
      rw [hc1] at h
      simp only [Bool.false_eq_true, if_false, bindOk] at h
      rw [hlst "ia"] at h
      cases hc2 : xs.contains "ia" with
      | true =>
        rw [hc2] at h
        simp only [eq_self_iff_true, if_true, bindErr] at h
        exact Except.noConfusion h
      | false =>
      rw [hc2] at h
      simp only [Bool.false_eq_true, if_false, bindOk] at h
      by_cases hx : xs = []
      · subst hx
        rw [if_pos (by simp [pyTruthy])] at h
        injection h with h
        subst h
        exact herase
      · rw [if_neg (by simp [pyTruthy, hx])] at h
        simp only [pyGetDefault, bindErr] at h
        exact Except.noConfusion h
    | null =>
      unfold leviesCleanup at h
      simp only [pyContainsKey, hlev, Option.isSome_some, bindOk, Bool.not_true,
        Bool.false_eq_true, if_false, pyGetItem, leviesMember, bindErr] at h
      exact Except.noConfusion h
    | int n =>
      unfold leviesCleanup at h
      simp only [pyContainsKey, hlev, Option.isSome_some, bindOk, Bool.not_true,
        Bool.false_eq_true, if_false, pyGetItem, leviesMember, bindErr] at h
      exact Except.noConfusion h
    | num q =>
      unfold leviesCleanup at h
      simp only [pyContainsKey, hlev, Option.isSome_some, bindOk, Bool.not_true,
        Bool.false_eq_true, if_false, pyGetItem, leviesMember, bindErr] at h
      exact Except.noConfusion h

theorem fillScalars_post (defs : List (String × JSON)) (fs gs : Fields)
    (hnd : (defs.map Prod.fst).Nodup)
    (hnn : ∀ key dflt, (key, dflt) ∈ defs → isNull dflt = false)
    (h : fillScalars (.obj fs) defs = .ok (.obj gs)) :
    ∀ key dflt, (key, dflt) ∈ defs → needsDefault gs key = false := by
  obtain ⟨gs', hg, _, hmem⟩ := fillScalars_spec defs fs (.obj gs) hnd h
  injection hg with hg
  subst hg
  intro key dflt hm
  obtain ⟨h1, h2⟩ := hmem key dflt hm
  exact needsDefault_false_of_memprops fs gs key dflt (hnn key dflt hm) h1 h2

theorem coverageBody_idem (v w : JSON) (h : coverageBody v = .ok w) :
    coverageBody w = .ok w := by
  obtain ⟨fs, gs, ls, ms, rfl, rfl, hls, hll, hex, hscal, hliab⟩ := coverageBody_spec _ _ h
  have hstable : fillScalars (.obj gs) coverageScalarDefaults = .ok (.obj gs) := by
    apply fillScalars_stable
    intro key dflt hm
    exact needsDefault_false_of_memprops fs gs key dflt
      (by fin_cases hm <;> rfl) (hscal key dflt hm).1 (hscal key dflt hm).2
  have hstable2 : fillScalars (.obj ms) liabilityDefaults = .ok (.obj ms) := by
    apply fillScalars_stable
    intro key dflt hm
    exact needsDefault_false_of_memprops ls ms key dflt
      (by fin_cases hm <;> rfl) (hliab key dflt hm).1 (hliab key dflt hm).2
  unfold coverageBody
  rw [hstable, bindOk,
    show pyContainsKey (.obj gs) "liabilityLimits" = .ok true by simp [pyContainsKey, hll]]
  simp only [bindOk, eq_self_iff_true, if_true, bindOk, pureOk,
    show pyGetItem (.obj gs) "liabilityLimits" = .ok (.obj ms) by simp [pyGetItem, hll]]
  rw [hstable2]
  simp only [bindOk, pySetItem, setKey_self_of_lookup gs "liabilityLimits" (.obj ms) hll]
  rw [show pyContainsKey (.obj gs) "excess" = .ok true by
    simp only [pyContainsKey, hex]]
  simp only [bindOk, eq_self_iff_true, if_true, pureOk]

theorem premiumBody_idem (v w : JSON)
    (hnod : ∀ fs, v = .obj fs → (fs.map Prod.fst).Nodup)
    (h : premiumBody v = .ok w) : premiumBody w = .ok w := by
  unfold premiumBody at h
  cases h1 : fillScalars v premiumDefaults with
  | error e => cases e; rw [h1, bindErr] at h; cases h
  | ok v1 =>
  rw [h1, bindOk] at h
  have h1' : fillScalars v
      (("premiumAmount", JSON.num 0) :: ("totalPayable", JSON.num 0) ::
       [("noClaimDiscount", JSON.num 0)]) = .ok v1 := h1
  obtain ⟨fs, rfl⟩ := fillScalars_ok_obj _ _ _ _ _ h1'
  obtain ⟨gs1, rfl, hunt1, hmem1⟩ := fillScalars_spec premiumDefaults fs v1 (by decide) h1
  have hnd1 : (gs1.map Prod.fst).Nodup :=
    fillScalars_keys_nodup premiumDefaults fs gs1 (hnod fs rfl) h1
  obtain ⟨gs, rfl, hframe⟩ := leviesCleanup_frame gs1 _ h
  have hpost := fillScalars_post premiumDefaults fs gs1 (by decide)
    (by intro key dflt hm; fin_cases hm <;> rfl) h1
  unfold premiumBody
  rw [show fillScalars (.obj gs) premiumDefaults = .ok (.obj gs) by
    apply fillScalars_stable
    intro key dflt hm
    have hk := premium_scalar_key_ne key dflt hm
    unfold needsDefault
    rw [hframe key hk]
    have := hpost key dflt hm
    unfold needsDefault at this
    exact this, bindOk]
  exact leviesCleanup_idem gs1 (.obj gs) hnd1 h

theorem insurerBody_idem (v w : JSON) (h : insurerBody v = .ok w) :
    insurerBody w = .ok w := by
  obtain ⟨fs, gs, ps, ms, rfl, rfl, hps, hpoi, hscal, hper⟩ := insurerBody_spec _ _ h
  have hstable : fillScalars (.obj gs) insurerScalarDefaults = .ok (.obj gs) := by
    apply fillScalars_stable
    intro key dflt hm
    exact needsDefault_false_of_memprops fs gs key dflt
      (by fin_cases hm <;> rfl) (hscal key dflt hm).1 (hscal key dflt hm).2
  have hstable2 : fillScalars (.obj ms) periodDefaults = .ok (.obj ms) := by
    apply fillScalars_stable
    intro key dflt hm
    exact needsDefault_false_of_memprops ps ms key dflt
      (by fin_cases hm <;> rfl) (hper key dflt hm).1 (hper key dflt hm).2
  unfold insurerBody
  rw [show pyContainsKey (.obj gs) "periodOfInsurance" = .ok true by
    simp [pyContainsKey, hpoi]]
  simp only [bindOk, eq_self_iff_true, if_true, pureOk]
  rw [hstable]
  simp only [bindOk,
    show pyGetItem (.obj gs) "periodOfInsurance" = .ok (.obj ms) by simp [pyGetItem, hpoi]]
  rw [hstable2]
  simp only [bindOk, pySetItem, setKey_self_of_lookup gs "periodOfInsurance" (.obj ms) hpoi]

/-! ## Well-formed documents (Python dicts have unique keys) -/

mutual

/-- A value is well formed when every dict inside it has pairwise-distinct
keys — automatic for values that come from Python dicts. -/
def wfJSON : JSON → Bool
  | .obj fs => wfFields fs
  | _ => true

/-- Field lists with pairwise-distinct keys and well-formed values. -/
def wfFields : Fields → Bool
  | [] => true
  | (k, v) :: rest => rest.all (fun p => p.1 != k) && wfJSON v && wfFields rest

end

theorem wfFields_keys_nodup (l : Fields) (h : wfFields l = true) :
    (l.map Prod.fst).Nodup := by
  induction l with
  | nil => simp
  | cons hd tl ih =>
    obtain ⟨k, v⟩ := hd
    rw [wfFields, Bool.and_eq_true, Bool.and_eq_true] at h
    rw [List.map_cons, List.nodup_cons]
    refine ⟨?_, ih h.2⟩
    intro hmem
    rcases List.mem_map.mp hmem with ⟨⟨k1, v1⟩, hm1, hk1⟩
    have := List.all_eq_true.mp h.1.1 _ hm1
    simp only [bne_iff_ne, ne_eq] at this
    exact this hk1

theorem wfFields_lookup (l : Fields) (k : String) (v : JSON)
    (h : wfFields l = true) (hl : lookupKey l k = some v) : wfJSON v = true := by
  induction l with
  | nil => simp [lookupKey] at hl
  | cons hd tl ih =>
    obtain ⟨k0, v0⟩ := hd
    rw [wfFields, Bool.and_eq_true, Bool.and_eq_true] at h
    by_cases h0 : k0 = k
    · simp only [lookupKey, if_pos h0] at hl
      injection hl with hl
      exact hl ▸ h.1.2
    · simp only [lookupKey, if_neg h0] at hl
      exact ih h.2 hl

/-- Claim C9 — the default-completion pass (`_fill_missing_required_fields`)
is idempotent: if it completes on a well-formed document `d` (a Python dict
never has duplicate keys, which is what `wfFields` states) yielding `d'`,
then running it again on `d'` yields `d'` unchanged. -/
theorem default_completion_idempotent (d d' : Fields)
    (hwf : wfFields d = true)
    (h : fillMissingRequiredFields d = .ok d') :
    fillMissingRequiredFields d' = .ok d' := by
  obtain ⟨d1, d2, d3, d4, h1, h2, h3, h4, h5⟩ := fill_ok_parts d d' h
  obtain ⟨v1, hb1, hl1, hf1⟩ := fillSectionWith_ok _ _ _ _ _ h1
  obtain ⟨v2, hb2, hl2, hf2⟩ := fillSectionWith_ok _ _ _ _ _ h2
  obtain ⟨v3, hb3, hl3, hf3⟩ := fillSectionWith_ok _ _ _ _ _ h3
  obtain ⟨v4, hb4, hl4, hf4⟩ := fillSectionWith_ok _ _ _ _ _ h4
  obtain ⟨v5, hb5, hl5, hf5⟩ := fillSectionWith_ok _ _ _ _ _ h5
  have hd'1 : lookupKey d' "policyholder" = some v1 := by
    rw [hf5 _ (by decide), hf4 _ (by decide), hf3 _ (by decide), hf2 _ (by decide)]
    exact hl1
  have hd'2 : lookupKey d' "vehicle" = some v2 := by
    rw [hf5 _ (by decide), hf4 _ (by decide), hf3 _ (by decide)]
    exact hl2
  have hd'3 : lookupKey d' "coverage" = some v3 := by
    rw [hf5 _ (by decide), hf4 _ (by decide)]
    exact hl3
  have hd'4 : lookupKey d' "premiumAndDiscounts" = some v4 := by
    rw [hf5 _ (by decide)]
    exact hl4
  have hd'5 : lookupKey d' "insurerAndPolicyDetails" = some v5 := hl5
  have hib1 : fillScalars v1 policyholderDefaults = .ok v1 := by
    obtain ⟨fs0, hfs0⟩ := fillScalars_ok_obj _ _ _ _ _
      (show fillScalars ((lookupKey d "policyholder").getD (.obj []))
        (("name", JSON.str "UNKNOWN") :: ("address", JSON.str "UNKNOWN") ::
         [("occupation", JSON.str "UNKNOWN")]) = .ok v1 from hb1)
    rw [hfs0] at hb1
    exact fillScalars_idem _ _ _ (by decide)
      (by intro key dflt hm; fin_cases hm <;> rfl) hb1
  have hib2 : fillScalars v2 vehicleDefaults = .ok v2 := by
    obtain ⟨fs0, hfs0⟩ := fillScalars_ok_obj _ _ _ _ _
      (show fillScalars ((lookupKey d1 "vehicle").getD (.obj []))
        (("registrationMark", JSON.str "UNKNOWN") :: ("makeAndModel", JSON.str "UNKNOWN") ::
         ("yearOfManufacture", JSON.int 0) :: ("chassisNumber", JSON.str "UNKNOWN") ::
         ("seatingCapacity", JSON.int 0) :: [("bodyType", JSON.str "UNKNOWN")]) = .ok v2
        from hb2)
    rw [hfs0] at hb2
    exact fillScalars_idem _ _ _ (by decide)
      (by intro key dflt hm; fin_cases hm <;> rfl) hb2
  have hib3 : coverageBody v3 = .ok v3 := coverageBody_idem _ _ hb3
  have hpd3 : lookupKey d3 "premiumAndDiscounts" = lookupKey d "premiumAndDiscounts" := by
    rw [hf3 _ (by decide), hf2 _ (by decide), hf1 _ (by decide)]
  have hib4 : premiumBody v4 = .ok v4 := by
    refine premiumBody_idem _ _ ?_ hb4
    intro fs hfs
    cases hdp : lookupKey d "premiumAndDiscounts" with
    | none =>
      rw [hpd3, hdp] at hfs
      simp only [Option.getD_none] at hfs
      injection hfs with hfs
      simp [← hfs]
    | some x =>
      rw [hpd3, hdp] at hfs
      simp only [Option.getD_some] at hfs
      subst hfs
      have := wfFields_lookup d "premiumAndDiscounts" _ hwf hdp
      rw [wfJSON] at this
      exact wfFields_keys_nodup fs this
  have hib5 : insurerBody v5 = .ok v5 := insurerBody_idem _ _ hb5
  unfold fillMissingRequiredFields
  rw [fillSectionWith_stable false "policyholder" _ d' v1 hd'1 hib1, bindOk,
    fillSectionWith_stable true "vehicle" _ d' v2 hd'2 hib2, bindOk,
    fillSectionWith_stable true "coverage" _ d' v3 hd'3 hib3, bindOk,
    fillSectionWith_stable true "premiumAndDiscounts" _ d' v4 hd'4 hib4, bindOk]
  exact fillSectionWith_stable true "insurerAndPolicyDetails" _ d' v5 hd'5 hib5

/-! ## Required-field completeness (claim C1) -/

/-- The required string fields and their canonical defaults, as dotted paths
(the defaults table of `_fill_missing_required_fields`). -/
def requiredStringDefaults : List (List String × String) :=
  [(["policyholder", "name"], "UNKNOWN"),
   (["policyholder", "address"], "UNKNOWN"),
   (["policyholder", "occupation"], "UNKNOWN"),
   (["vehicle", "registrationMark"], "UNKNOWN"),
   (["vehicle", "makeAndModel"], "UNKNOWN"),
   (["vehicle", "chassisNumber"], "UNKNOWN"),
   (["vehicle", "bodyType"], "UNKNOWN"),
   (["coverage", "typeOfCover"], "UNKNOWN"),
   (["coverage", "limitationsOnUse"], "UNKNOWN - standard usage restrictions apply"),
   (["coverage", "authorizedDrivers"], "UNKNOWN - standard driver authorization applies"),
   (["insurerAndPolicyDetails", "insurerName"], "UNKNOWN"),
   (["insurerAndPolicyDetails", "policyNumber"], "UNKNOWN"),
   (["insurerAndPolicyDetails", "periodOfInsurance", "start"], "UNKNOWN"),
   (["insurerAndPolicyDetails", "periodOfInsurance", "end"], "UNKNOWN")]

/-- The required numeric fields and their typed zero defaults. -/
def requiredNumericDefaults : List (List String × JSON) :=
  [(["vehicle", "yearOfManufacture"], .int 0),
   (["vehicle", "seatingCapacity"], .int 0),
   (["coverage", "liabilityLimits", "bodilyInjury"], .int 0),
   (["coverage", "liabilityLimits", "propertyDamage"], .int 0),
   (["premiumAndDiscounts", "premiumAmount"], .num 0),
   (["premiumAndDiscounts", "totalPayable"], .num 0),
   (["premiumAndDiscounts", "noClaimDiscount"], .num 0)]

/-- Is the path absent or explicitly null in the document? -/
def absentOrNull (d : Fields) (p : List String) : Bool :=
  match getPath d p with
  | none => true
  | some v => isNull v

/-- Is the path present with a non-null value? -/
def presentNonNull (d : Fields) (p : List String) : Bool :=
  match getPath d p with
  | none => false
  | some v => !(isNull v)

theorem getPath_two (d : Fields) (s k : String) (gs : Fields)
    (h : lookupKey d s = some (.obj gs)) : getPath d [s, k] = lookupKey gs k := by
  simp [getPath, h]

theorem getPath_three (d : Fields) (s m k : String) (gs ms : Fields)
    (h : lookupKey d s = some (.obj gs)) (h2 : lookupKey gs m = some (.obj ms)) :
    getPath d [s, m, k] = lookupKey ms k := by
  simp [getPath, h, h2]

theorem absentOrNull_two (d : Fields) (s k : String) (fs : Fields)
    (hv : (lookupKey d s).getD (.obj []) = .obj fs) :
    absentOrNull d [s, k] = needsDefault fs k := by
  unfold absentOrNull needsDefault
  cases hl : lookupKey d s with
  | none =>
    rw [hl] at hv
    simp only [Option.getD_none] at hv
    injection hv with hv
    simp [getPath, hl, ← hv, lookupKey]
  | some x =>
    rw [hl] at hv
    simp only [Option.getD_some] at hv
    subst hv
    simp only [getPath, hl]

theorem absentOrNull_three (d : Fields) (s m k : String) (fs ls : Fields)
    (hv : (lookupKey d s).getD (.obj []) = .obj fs)
    (hl : (lookupKey fs m).getD (.obj []) = .obj ls) :
    absentOrNull d [s, m, k] = needsDefault ls k := by
  unfold absentOrNull needsDefault
  cases hds : lookupKey d s with
  | none =>
    rw [hds] at hv
    simp only [Option.getD_none] at hv
    injection hv with hv
    rw [← hv] at hl
    simp only [lookupKey, Option.getD_none] at hl
    injection hl with hl
    simp [getPath, hds, ← hl, lookupKey]
  | some x =>
    rw [hds] at hv
    simp only [Option.getD_some] at hv
    subst hv
    cases hfm : lookupKey fs m with
    | none =>
      rw [hfm] at hl
      simp only [Option.getD_none] at hl
      injection hl with hl
      simp [getPath, hds, hfm, ← hl, lookupKey]
    | some y =>
      rw [hfm] at hl
      simp only [Option.getD_some] at hl
      subst hl
      simp only [getPath, hds, hfm]

theorem path_conclusion (dRes d0 : Fields) (p : List String) (fs gs : Fields)
    (k : String) (dflt : JSON)
    (hdn : isNull dflt = false)
    (hA : needsDefault fs k = true → lookupKey gs k = some dflt)
    (hB : needsDefault fs k = false → lookupKey gs k = lookupKey fs k)
    (hgp : getPath dRes p = lookupKey gs k)
    (hao : absentOrNull d0 p = needsDefault fs k) :
    presentNonNull dRes p = true ∧
    (absentOrNull d0 p = true → getPath dRes p = some dflt) := by
  constructor
  · unfold presentNonNull
    rw [hgp]
    cases hneed : needsDefault fs k with
    | false =>
      rw [hB hneed]
      unfold needsDefault at hneed
      cases hk : lookupKey fs k with
      | none => rw [hk] at hneed; exact absurd hneed (by decide)
      | some x =>
        rw [hk] at hneed
        have hneed' : isNull x = false := hneed
        simp [hneed']
    | true =>
      rw [hA hneed]
      simp [hdn]
  · intro ha
    rw [hao] at ha
    rw [hgp, hA ha]

/-- Claim C1 — after `_parse_key_value_pairs` completes (line parsing `d0`
followed by the default-completion pass yielding `d'`), every schema-required
field is present and non-null; a required string field that was absent or
null after line parsing holds exactly its canonical `"UNKNOWN"` sentinel (or
the richer canonical message for `limitationsOnUse` / `authorizedDrivers`),
and a required numeric field that was absent or null holds its typed zero
default. -/
theorem required_fields_complete (text : String) (d0 d' : Fields)
    (h0 : parseLinesPhase text = .ok d0)
    (hp : parseKeyValuePairs text = .ok d') :
    (∀ p dflt, (p, dflt) ∈ requiredStringDefaults →
      presentNonNull d' p = true ∧
      (absentOrNull d0 p = true → getPath d' p = some (.str dflt))) ∧
    (∀ p dflt, (p, dflt) ∈ requiredNumericDefaults →
      presentNonNull d' p = true ∧
      (absentOrNull d0 p = true → getPath d' p = some dflt)) := by
  have hf : fillMissingRequiredFields d0 = .ok d' := by
    unfold parseKeyValuePairs at hp
    rw [h0, bindOk] at hp
    exact hp
  obtain ⟨d1, d2, d3, d4, h1, h2, h3, h4, h5⟩ := fill_ok_parts d0 d' hf
  obtain ⟨v1, hb1, hl1, hfr1⟩ := fillSectionWith_ok _ _ _ _ _ h1
  obtain ⟨v2, hb2, hl2, hfr2⟩ := fillSectionWith_ok _ _ _ _ _ h2
  obtain ⟨v3, hb3, hl3, hfr3⟩ := fillSectionWith_ok _ _ _ _ _ h3
  obtain ⟨v4, hb4, hl4, hfr4⟩ := fillSectionWith_ok _ _ _ _ _ h4
  obtain ⟨v5, hb5, hl5, hfr5⟩ := fillSectionWith_ok _ _ _ _ _ h5
  have hd1 : lookupKey d' "policyholder" = some v1 := by
    rw [hfr5 _ (by decide), hfr4 _ (by decide), hfr3 _ (by decide), hfr2 _ (by decide)]
    exact hl1
  have hd2 : lookupKey d' "vehicle" = some v2 := by
    rw [hfr5 _ (by decide), hfr4 _ (by decide), hfr3 _ (by decide)]
    exact hl2
  have hd3 : lookupKey d' "coverage" = some v3 := by
    rw [hfr5 _ (by decide), hfr4 _ (by decide)]
    exact hl3
  have hd4 : lookupKey d' "premiumAndDiscounts" = some v4 := by
    rw [hfr5 _ (by decide)]
    exact hl4
  have hd5 : lookupKey d' "insurerAndPolicyDetails" = some v5 := hl5
  -- policyholder section
  obtain ⟨fsP, hfsP⟩ := fillScalars_ok_obj _ _ _ _ _
    (show fillScalars ((lookupKey d0 "policyholder").getD (.obj []))
      (("name", JSON.str "UNKNOWN") :: ("address", JSON.str "UNKNOWN") ::
       [("occupation", JSON.str "UNKNOWN")]) = .ok v1 from hb1)
  rw [hfsP] at hb1
  obtain ⟨gsP, hgsP, huntP, hmP⟩ := fillScalars_spec policyholderDefaults fsP v1 (by decide) hb1
  subst hgsP
  -- vehicle section
  obtain ⟨fsV, hfsV⟩ := fillScalars_ok_obj _ _ _ _ _
    (show fillScalars ((lookupKey d1 "vehicle").getD (.obj []))
      (("registrationMark", JSON.str "UNKNOWN") :: ("makeAndModel", JSON.str "UNKNOWN") ::
       ("yearOfManufacture", JSON.int 0) :: ("chassisNumber", JSON.str "UNKNOWN") ::
       ("seatingCapacity", JSON.int 0) :: [("bodyType", JSON.str "UNKNOWN")]) = .ok v2
      from hb2)
  rw [hfsV] at hb2
  obtain ⟨gsV, hgsV, huntV, hmV⟩ := fillScalars_spec vehicleDefaults fsV v2 (by decide) hb2
  subst hgsV
  have hfsV0 : (lookupKey d0 "vehicle").getD (.obj []) = .obj fsV := by
    rw [← hfr1 "vehicle" (by decide)]
    exact hfsV
  -- coverage section
  obtain ⟨fsC, gsC, lsC, msC, hfsC, hgsC, hlsC, hllC, hexC, hscalC, hliabC⟩ :=
    coverageBody_spec _ _ hb3
  subst hgsC
  have hfsC0 : (lookupKey d0 "coverage").getD (.obj []) = .obj fsC := by
    rw [← hfr1 "coverage" (by decide), ← hfr2 "coverage" (by decide)]
    exact hfsC
  -- premium section
  obtain ⟨fsD, gsD, hfsD, hgsD, hscalD, hlevD⟩ := premiumBody_spec _ _ hb4
  subst hgsD
  have hfsD0 : (lookupKey d0 "premiumAndDiscounts").getD (.obj []) = .obj fsD := by
    rw [← hfr1 "premiumAndDiscounts" (by decide), ← hfr2 "premiumAndDiscounts" (by decide),
      ← hfr3 "premiumAndDiscounts" (by decide)]
    exact hfsD
  -- insurer section
  obtain ⟨fsI, gsI, psI, msI, hfsI, hgsI, hpsI, hpoiI, hscalI, hperI⟩ :=
    insurerBody_spec _ _ hb5
  subst hgsI
  have hfsI0 : (lookupKey d0 "insurerAndPolicyDetails").getD (.obj []) = .obj fsI := by
    rw [← hfr1 "insurerAndPolicyDetails" (by decide), ← hfr2 "insurerAndPolicyDetails" (by decide),
      ← hfr3 "insurerAndPolicyDetails" (by decide), ← hfr4 "insurerAndPolicyDetails" (by decide)]
    exact hfsI
  constructor
  · intro p dflt hm
    simp only [requiredStringDefaults] at hm
    fin_cases hm
    · exact path_conclusion d' d0 _ fsP gsP "name" (.str "UNKNOWN") rfl
        (hmP "name" _ (by repeat first | exact List.Mem.head _ | apply List.Mem.tail)).1
        (hmP "name" _ (by repeat first | exact List.Mem.head _ | apply List.Mem.tail)).2
        (getPath_two _ _ _ _ hd1) (absentOrNull_two _ _ _ _ hfsP)
    · exact path_conclusion d' d0 _ fsP gsP "address" (.str "UNKNOWN") rfl
        (hmP "address" _ (by repeat first | exact List.Mem.head _ | apply List.Mem.tail)).1
        (hmP "address" _ (by repeat first | exact List.Mem.head _ | apply List.Mem.tail)).2
        (getPath_two _ _ _ _ hd1) (absentOrNull_two _ _ _ _ hfsP)
    · exact path_conclusion d' d0 _ fsP gsP "occupation" (.str "UNKNOWN") rfl
        (hmP "occupation" _ (by repeat first | exact List.Mem.head _ | apply List.Mem.tail)).1
        (hmP "occupation" _ (by repeat first | exact List.Mem.head _ | apply List.Mem.tail)).2
        (getPath_two _ _ _ _ hd1) (absentOrNull_two _ _ _ _ hfsP)
    · exact path_conclusion d' d0 _ fsV gsV "registrationMark" (.str "UNKNOWN") rfl
        (hmV "registrationMark" _ (by repeat first | exact List.Mem.head _ | apply List.Mem.tail)).1
        (hmV "registrationMark" _ (by repeat first | exact List.Mem.head _ | apply List.Mem.tail)).2
        (getPath_two _ _ _ _ hd2) (absentOrNull_two _ _ _ _ hfsV0)
    · exact path_conclusion d' d0 _ fsV gsV "makeAndModel" (.str "UNKNOWN") rfl
        (hmV "makeAndModel" _ (by repeat first | exact List.Mem.head _ | apply List.Mem.tail)).1
        (hmV "makeAndModel" _ (by repeat first | exact List.Mem.head _ | apply List.Mem.tail)).2
        (getPath_two _ _ _ _ hd2) (absentOrNull_two _ _ _ _ hfsV0)
    · exact path_conclusion d' d0 _ fsV gsV "chassisNumber" (.str "UNKNOWN") rfl
        (hmV "chassisNumber" _ (by repeat first | exact List.Mem.head _ | apply List.Mem.tail)).1
        (hmV "chassisNumber" _ (by repeat first | exact List.Mem.head _ | apply List.Mem.tail)).2
        (getPath_two _ _ _ _ hd2) (absentOrNull_two _ _ _ _ hfsV0)
    · exact path_conclusion d' d0 _ fsV gsV "bodyType" (.str "UNKNOWN") rfl
        (hmV "bodyType" _ (by repeat first | exact List.Mem.head _ | apply List.Mem.tail)).1
        (hmV "bodyType" _ (by repeat first | exact List.Mem.head _ | apply List.Mem.tail)).2
        (getPath_two _ _ _ _ hd2) (absentOrNull_two _ _ _ _ hfsV0)
    · exact path_conclusion d' d0 _ fsC gsC "typeOfCover" (.str "UNKNOWN") rfl
        (hscalC "typeOfCover" _ (by repeat first | exact List.Mem.head _ | apply List.Mem.tail)).1
        (hscalC "typeOfCover" _ (by repeat first | exact List.Mem.head _ | apply List.Mem.tail)).2
        (getPath_two _ _ _ _ hd3) (absentOrNull_two _ _ _ _ hfsC0)
    · exact path_conclusion d' d0 _ fsC gsC "limitationsOnUse"
        (.str "UNKNOWN - standard usage restrictions apply") rfl
        (hscalC "limitationsOnUse" _ (by repeat first | exact List.Mem.head _ | apply List.Mem.tail)).1
        (hscalC "limitationsOnUse" _ (by repeat first | exact List.Mem.head _ | apply List.Mem.tail)).2
        (getPath_two _ _ _ _ hd3) (absentOrNull_two _ _ _ _ hfsC0)
    · exact path_conclusion d' d0 _ fsC gsC "authorizedDrivers"
        (.str "UNKNOWN - standard driver authorization applies") rfl
        (hscalC "authorizedDrivers" _ (by repeat first | exact List.Mem.head _ | apply List.Mem.tail)).1
        (hscalC "authorizedDrivers" _ (by repeat first | exact List.Mem.head _ | apply List.Mem.tail)).2
        (getPath_two _ _ _ _ hd3) (absentOrNull_two _ _ _ _ hfsC0)
    · exact path_conclusion d' d0 _ fsI gsI "insurerName" (.str "UNKNOWN") rfl
        (hscalI "insurerName" _ (by repeat first | exact List.Mem.head _ | apply List.Mem.tail)).1
        (hscalI "insurerName" _ (by repeat first | exact List.Mem.head _ | apply List.Mem.tail)).2
        (getPath_two _ _ _ _ hd5) (absentOrNull_two _ _ _ _ hfsI0)
    · exact path_conclusion d' d0 _ fsI gsI "policyNumber" (.str "UNKNOWN") rfl
        (hscalI "policyNumber" _ (by repeat first | exact List.Mem.head _ | apply List.Mem.tail)).1
        (hscalI "policyNumber" _ (by repeat first | exact List.Mem.head _ | apply List.Mem.tail)).2
        (getPath_two _ _ _ _ hd5) (absentOrNull_two _ _ _ _ hfsI0)
    · exact path_conclusion d' d0 _ psI msI "start" (.str "UNKNOWN") rfl
        (hperI "start" _ (by repeat first | exact List.Mem.head _ | apply List.Mem.tail)).1
        (hperI "start" _ (by repeat first | exact List.Mem.head _ | apply List.Mem.tail)).2
        (getPath_three _ _ _ _ _ _ hd5 hpoiI) (absentOrNull_three _ _ _ _ _ _ hfsI0 hpsI)
    · exact path_conclusion d' d0 _ psI msI "end" (.str "UNKNOWN") rfl
        (hperI "end" _ (by repeat first | exact List.Mem.head _ | apply List.Mem.tail)).1
        (hperI "end" _ (by repeat first | exact List.Mem.head _ | apply List.Mem.tail)).2
        (getPath_three _ _ _ _ _ _ hd5 hpoiI) (absentOrNull_three _ _ _ _ _ _ hfsI0 hpsI)
  · intro p dflt hm
    simp only [requiredNumericDefaults] at hm
    fin_cases hm
    · exact path_conclusion d' d0 _ fsV gsV "yearOfManufacture" (.int 0) rfl
        (hmV "yearOfManufacture" _ (by repeat first | exact List.Mem.head _ | apply List.Mem.tail)).1
        (hmV "yearOfManufacture" _ (by repeat first | exact List.Mem.head _ | apply List.Mem.tail)).2
        (getPath_two _ _ _ _ hd2) (absentOrNull_two _ _ _ _ hfsV0)
    · exact path_conclusion d' d0 _ fsV gsV "seatingCapacity" (.int 0) rfl
        (hmV "seatingCapacity" _ (by repeat first | exact List.Mem.head _ | apply List.Mem.tail)).1
        (hmV "seatingCapacity" _ (by repeat first | exact List.Mem.head _ | apply List.Mem.tail)).2
        (getPath_two _ _ _ _ hd2) (absentOrNull_two _ _ _ _ hfsV0)
    · exact path_conclusion d' d0 _ lsC msC "bodilyInjury" (.int 0) rfl
        (hliabC "bodilyInjury" _ (by repeat first | exact List.Mem.head _ | apply List.Mem.tail)).1
        (hliabC "bodilyInjury" _ (by repeat first | exact List.Mem.head _ | apply List.Mem.tail)).2
        (getPath_three _ _ _ _ _ _ hd3 hllC) (absentOrNull_three _ _ _ _ _ _ hfsC0 hlsC)
    · exact path_conclusion d' d0 _ lsC msC "propertyDamage" (.int 0) rfl
        (hliabC "propertyDamage" _ (by repeat first | exact List.Mem.head _ | apply List.Mem.tail)).1
        (hliabC "propertyDamage" _ (by repeat first | exact List.Mem.head _ | apply List.Mem.tail)).2
        (getPath_three _ _ _ _ _ _ hd3 hllC) (absentOrNull_three _ _ _ _ _ _ hfsC0 hlsC)
    · exact path_conclusion d' d0 _ fsD gsD "premiumAmount" (.num 0) rfl
        (hscalD "premiumAmount" _ (by repeat first | exact List.Mem.head _ | apply List.Mem.tail)).1
        (hscalD "premiumAmount" _ (by repeat first | exact List.Mem.head _ | apply List.Mem.tail)).2
        (getPath_two _ _ _ _ hd4) (absentOrNull_two _ _ _ _ hfsD0)
    · exact path_conclusion d' d0 _ fsD gsD "totalPayable" (.num 0) rfl
        (hscalD "totalPayable" _ (by repeat first | exact List.Mem.head _ | apply List.Mem.tail)).1
        (hscalD "totalPayable" _ (by repeat first | exact List.Mem.head _ | apply List.Mem.tail)).2
        (getPath_two _ _ _ _ hd4) (absentOrNull_two _ _ _ _ hfsD0)
    · exact path_conclusion d' d0 _ fsD gsD "noClaimDiscount" (.num 0) rfl
        (hscalD "noClaimDiscount" _ (by repeat first | exact List.Mem.head _ | apply List.Mem.tail)).1
        (hscalD "noClaimDiscount" _ (by repeat first | exact List.Mem.head _ | apply List.Mem.tail)).2
        (getPath_two _ _ _ _ hd4) (absentOrNull_two _ _ _ _ hfsD0)

/-- The document produced by `_parse_key_value_pairs("")`: every section is
created and filled with its canonical defaults (the initial `levies` dict is
empty, so the fill pass removes it). -/
def parsedEmptyDoc : Fields :=
  [("policyholder", .obj [("name", .str "UNKNOWN"), ("address", .str "UNKNOWN"),
      ("occupation", .str "UNKNOWN")]),
   ("vehicle", .obj [("registrationMark", .str "UNKNOWN"), ("makeAndModel", .str "UNKNOWN"),
      ("yearOfManufacture", .int 0), ("chassisNumber", .str "UNKNOWN"),
      ("seatingCapacity", .int 0), ("bodyType", .str "UNKNOWN")]),
   ("coverage", .obj [("liabilityLimits", .obj [("bodilyInjury", .int 0),
        ("propertyDamage", .int 0)]),
      ("excess", .obj []),
      ("typeOfCover", .str "UNKNOWN"),
      ("limitationsOnUse", .str "UNKNOWN - standard usage restrictions apply"),
      ("authorizedDrivers", .str "UNKNOWN - standard driver authorization applies")]),
   ("premiumAndDiscounts", .obj [("premiumAmount", .num 0), ("totalPayable", .num 0),
      ("noClaimDiscount", .num 0)]),
   ("insurerAndPolicyDetails", .obj [("periodOfInsurance", .obj [("start", .str "UNKNOWN"),
        ("end", .str "UNKNOWN")]),
      ("insurerName", .str "UNKNOWN"), ("policyNumber", .str "UNKNOWN")]),
   ("additionalEndorsements", .obj [])]

/-- The document produced by `_fill_missing_required_fields({})`: the five
sections the pass creates, each holding its canonical defaults. -/
def filledNilDoc : Fields :=
  [("policyholder", .obj [("name", .str "UNKNOWN"), ("address", .str "UNKNOWN"),
      ("occupation", .str "UNKNOWN")]),
   ("vehicle", .obj [("registrationMark", .str "UNKNOWN"), ("makeAndModel", .str "UNKNOWN"),
      ("yearOfManufacture", .int 0), ("chassisNumber", .str "UNKNOWN"),
      ("seatingCapacity", .int 0), ("bodyType", .str "UNKNOWN")]),
   ("coverage", .obj [("typeOfCover", .str "UNKNOWN"),
      ("limitationsOnUse", .str "UNKNOWN - standard usage restrictions apply"),
      ("authorizedDrivers", .str "UNKNOWN - standard driver authorization applies"),
      ("liabilityLimits", .obj [("bodilyInjury", .int 0), ("propertyDamage", .int 0)]),
      ("excess", .obj [])]),
   ("premiumAndDiscounts", .obj [("premiumAmount", .num 0), ("totalPayable", .num 0),
      ("noClaimDiscount", .num 0)]),
   ("insurerAndPolicyDetails", .obj [("periodOfInsurance", .obj [("start", .str "UNKNOWN"),
        ("end", .str "UNKNOWN")]),
      ("insurerName", .str "UNKNOWN"), ("policyNumber", .str "UNKNOWN")])]

/-- Witness for claim C1: instantiated at the empty response text, where line
parsing yields `initialData` and the full parse yields `parsedEmptyDoc`;
`policyholder.name` carries the `"UNKNOWN"` sentinel and
`vehicle.yearOfManufacture` the typed integer zero. -/
theorem required_fields_complete_witness :
    presentNonNull parsedEmptyDoc ["policyholder", "name"] = true ∧
    getPath parsedEmptyDoc ["policyholder", "name"] = some (.str "UNKNOWN") ∧
    presentNonNull parsedEmptyDoc ["vehicle", "yearOfManufacture"] = true ∧
    getPath parsedEmptyDoc ["vehicle", "yearOfManufacture"] = some (.int 0) := by
  have h := required_fields_complete "" initialData parsedEmptyDoc rfl rfl
  have hs := h.1 ["policyholder", "name"] "UNKNOWN"
    (by repeat first | exact List.Mem.head _ | apply List.Mem.tail)
  have hn := h.2 ["vehicle", "yearOfManufacture"] (.int 0)
    (by repeat first | exact List.Mem.head _ | apply List.Mem.tail)
  exact ⟨hs.1, hs.2 rfl, hn.1, hn.2 rfl⟩

/-- Witness for claim C9: instantiated at the empty document, whose fill
result is `filledNilDoc`; filling again returns it unchanged. -/
theorem default_completion_idempotent_witness :
    fillMissingRequiredFields filledNilDoc = .ok filledNilDoc :=
  default_completion_idempotent [] filledNilDoc rfl rfl

/-- The OCR ratio comparison `len(ocr_text.strip()) > text_length * 1.5`,
taken exactly over `Rat`, is the integer comparison `3*tl < 2*ol`. -/
theorem ocr_ratio_iff (a b : Nat) :
    (((a : Rat) > (b : Rat) * 1.5) ↔ 3 * b < 2 * a) := by
  constructor
  · intro h
    have h' : (3 * b : Rat) < 2 * a := by linarith
    exact_mod_cast h'
  · intro h
    have h' : (3 * b : Rat) < 2 * a := by exact_mod_cast h
    push_cast at h'
    linarith

/-- On the fallback branch (`use_ocr` true, short direct text) the result is
decided by the integer form of the ratio comparison. -/
theorem extract_ocr_branch (d o : String) (h : (pyStrip d).length < 100) :
    extractTextFromPdf d true o =
      if 3 * (pyStrip d).length < 2 * (pyStrip o).length
      then (o, true) else (d, true) := by
  unfold extractTextFromPdf
  rw [if_pos ⟨rfl, h⟩]
  by_cases hc : 3 * (pyStrip d).length < 2 * (pyStrip o).length
  · rw [if_pos ((ocr_ratio_iff _ _).mpr hc), if_pos hc]
  · rw [if_neg (fun hh => hc ((ocr_ratio_iff _ _).mp hh)), if_neg hc]

/-- Claim C3 — `extract_text_from_pdf` tries the OCR fallback only when
`use_ocr` is true and the stripped direct text has fewer than 100
characters; the OCR text is then returned iff its stripped length strictly
exceeds 1.5 times the direct stripped length, else the direct text is
returned even if short.  In particular stripped lengths 40 (direct) and 80
(OCR) return the OCR text, while 60 and 80 return the direct text. -/
theorem ocr_fallback_threshold :
    (∀ d o, extractTextFromPdf d false o = (d, false)) ∧
    (∀ d o, 100 ≤ (pyStrip d).length → extractTextFromPdf d true o = (d, false)) ∧
    (∀ d o, (pyStrip d).length < 100 →
      extractTextFromPdf d true o =
        if 3 * (pyStrip d).length < 2 * (pyStrip o).length
        then (o, true) else (d, true)) ∧
    extractTextFromPdf ⟨List.replicate 40 'a'⟩ true ⟨List.replicate 80 'b'⟩
      = (⟨List.replicate 80 'b'⟩, true) ∧
    extractTextFromPdf ⟨List.replicate 60 'a'⟩ true ⟨List.replicate 80 'b'⟩
      = (⟨List.replicate 60 'a'⟩, true) := by
  refine ⟨?_, ?_, ?_, ?_, ?_⟩
  · intro d o
    simp [extractTextFromPdf]
  · intro d o h
    simp [extractTextFromPdf, Nat.not_lt.mpr h]
  · exact extract_ocr_branch
  · rw [extract_ocr_branch _ _ (by decide), if_pos (by decide)]
  · rw [extract_ocr_branch _ _ (by decide), if_neg (by decide)]

/-- Witness for claim C3 at stripped direct length 0 and OCR length 3: the
fallback branch runs and the OCR text wins. -/
theorem ocr_fallback_threshold_witness :
    extractTextFromPdf "" true "xyz" = ("xyz", true) := by
  have h := ocr_fallback_threshold.2.2.1 "" "xyz" (by decide)
  rw [if_pos (by decide)] at h
  exact h

/-- Claim C6 — `validate_extracted_data` never propagates a validator
failure to its caller: a schema-load failure, and any exception from the
`jsonschema.validate` call other than a `ValidationError`, are caught and
converted into an invalid `ValidationResult` holding the generic
`"Unexpected validation error: ..."` string, returned together with the
unchanged input document; on every outcome the input document is returned
unchanged. -/
theorem validator_never_propagates (data : Fields) (m : String) :
    (∀ outcome, validateExtractedData (.error m) outcome data
      = (data, ⟨false, ["Unexpected validation error: " ++ m], []⟩)) ∧
    (∀ s, validateExtractedData (.ok s) (.exn m) data
      = (data, ⟨false, ["Unexpected validation error: " ++ m], []⟩)) ∧
    (∀ load outcome, (validateExtractedData load outcome data).1 = data) := by
  refine ⟨fun o => rfl, fun s => rfl, fun load o => ?_⟩
  cases load with
  | error m' => rfl
  | ok s => cases o <;> rfl

/-- Claim C8 — on a non-blank line that contains a colon and a non-empty
value, a value whose lowercasing is the plain token `"null"` is skipped (the
document is returned unchanged) unless the value text contains `"N/A"`, or
contains `"UNKNOWN"` or `"REDACTED"` after uppercasing, in which case the
value is assigned through `_set_nested_value` as usual. -/
theorem null_token_skipped (d : Fields) (line : String)
    (hb : pyStrip line ≠ "")
    (hc : pyCharIn ':' (pyStrip line) = true)
    (hv : lineValue line ≠ "")
    (hnull : pyLower (lineValue line) = "null") :
    processLine d line =
      if pyInStr "N/A" (lineValue line) = true ∨
          pyInStr "UNKNOWN" (pyUpper (lineValue line)) = true ∨
          pyInStr "REDACTED" (pyUpper (lineValue line)) = true
      then setNestedValue d (lineKey line) (lineValue line)
      else .ok d := by
  simp only [processLine]
  rw [if_neg hb, if_neg (by simp [hc]), if_neg hv]
  by_cases hs : pyInStr "N/A" (lineValue line) = true ∨
      pyInStr "UNKNOWN" (pyUpper (lineValue line)) = true ∨
      pyInStr "REDACTED" (pyUpper (lineValue line)) = true
  · rw [if_pos hs]
    rcases hs with h | h | h
    · rw [if_neg]
      intro hcond
      exact hcond.2.1 h
    · rw [if_neg]
      intro hcond
      exact hcond.2.2.1 h
    · rw [if_neg]
      intro hcond
      exact hcond.2.2.2 h
  · rw [if_neg hs]
    push_neg at hs
    rw [if_pos ⟨hnull, fun h => absurd h (by simpa using hs.1),
      fun h => absurd h (by simpa using hs.2.1),
      fun h => absurd h (by simpa using hs.2.2)⟩]

/-- Witness for claim C8 at the line `"a: null"`: the plain null token is
skipped and the document comes back unchanged. -/
theorem null_token_skipped_witness :
    processLine [] "a: null" = .ok [] := by
  have h := null_token_skipped [] "a: null" (by decide) (by decide) (by decide) (by decide)
  rw [if_neg (by decide)] at h
  exact h

/-- Claim C2 (amended) — the per-line recovery that does hold: a blank line,
or a line without a colon, is skipped and leaves the document unchanged.
(The unamended claim — that parsing completes on every input — is refuted by
`parse_prefix_collision_raises` below.) -/
theorem blank_or_colonless_line_skipped (d : Fields) (line : String)
    (h : pyStrip line = "" ∨ pyCharIn ':' (pyStrip line) = false) :
    processLine d line = .ok d := by
  simp only [processLine]
  rcases h with h | h
  · rw [if_pos h]
  · by_cases hb : pyStrip line = ""
    · rw [if_pos hb]
    · rw [if_neg hb, if_pos (by simp [h])]

/-- Witness for claim C2 (amended) at a line with no colon: it is skipped. -/
theorem blank_or_colonless_line_skipped_witness :
    processLine [] "no colon here" = .ok [] :=
  blank_or_colonless_line_skipped [] "no colon here" (Or.inr (by decide))

/-- Counterexample to claim C2 as frozen: a dotted path whose prefix was
already assigned a leaf string (`policyholder.name: X` followed by
`policyholder.name.first: Y`) is not recovered by skipping the line — the
navigation step `current = current[k]` reaches a `str` and the subsequent
indexing raises (`TypeError`), so `_parse_key_value_pairs` propagates an
exception instead of completing. -/
theorem parse_prefix_collision_raises :
    parseKeyValuePairs "policyholder.name: X\npolicyholder.name.first: Y"
      = .error () := rfl

/-- Claim C7 (amended) — for the dual-typed `levies.ia` field, a value that
is the token `INCLUDED` in any letter case (and carries no currency
decoration, so currency stripping leaves it unchanged) is assigned as a
string in its original casing, not coerced to a number and not uppercased;
a value whose uppercasing only matches after currency stripping (such as
`"$INCLUDED"`) is assigned `None`, because the assignment test reads the
raw value; and when `ia` never appears, the parsed `levies` object simply
lacks the key (no `null` entry is produced). -/
theorem ia_included_token (value : String)
    (hclean : stripCurrency value = value)
    (hU : pyUpper value = "INCLUDED") :
    coerceValue "ia" value = .str value ∧
    coerceValue "ia" "$INCLUDED" = .null ∧
    ((parseKeyValuePairs "premiumAndDiscounts.levies.ia: included").toOption.bind
        (fun d => getPath d ["premiumAndDiscounts", "levies", "ia"])
      = some (.str "included")) ∧
    ((parseKeyValuePairs "premiumAndDiscounts.levies.mib: 100").toOption.bind
        (fun d => getPath d ["premiumAndDiscounts", "levies"])
      = some (.obj [("mib", .int 100)])) := by
  refine ⟨?_, rfl, rfl, rfl⟩
  simp only [coerceValue]
  rw [if_neg (by decide), if_neg (by decide), if_neg (by decide), if_pos trivial]
  rw [hclean, hU]
  rw [if_neg (fun hc => hc.2.1 rfl), if_pos rfl]

/-- Witness for claim C7 (amended) at the mixed-case token `"iNcLuDeD"`:
the string is kept verbatim. -/
theorem ia_included_token_witness :
    coerceValue "ia" "iNcLuDeD" = .str "iNcLuDeD" :=
  (ia_included_token "iNcLuDeD" rfl rfl).1

/-- Counterexample to claim C7 as frozen: a lowercase `"included"` value is
stored in its original casing — not as the literal string `"INCLUDED"` the
claim names — and `"$INCLUDED"`, which is the token `INCLUDED` after
currency-symbol stripping, is assigned `None` rather than the string,
because the assignment test reads the raw, unstripped value. -/
theorem ia_included_not_canonicalized :
    coerceValue "ia" "included" = .str "included" ∧
    JSON.str "included" ≠ JSON.str "INCLUDED" ∧
    coerceValue "ia" "$INCLUDED" = .null := by
  refine ⟨rfl, ?_, rfl⟩
  intro h
  injection h with h
  exact absurd h (by decide)

/-- A one-section document whose levies members are both explicitly null. -/
def leviesNullDoc : Fields :=
  [("premiumAndDiscounts", .obj [("levies", .obj [("mib", .null), ("ia", .null)])])]

/-- The fill result on `leviesNullDoc`: the levies members are backfilled to
`0.0` and the sub-object is kept. -/
def leviesNullDocFilled : Fields :=
  [("premiumAndDiscounts", .obj
     [("levies", .obj [("mib", .num 0), ("ia", .num 0)]),
      ("premiumAmount", .num 0), ("totalPayable", .num 0), ("noClaimDiscount", .num 0)]),
   ("policyholder", .obj [("name", .str "UNKNOWN"), ("address", .str "UNKNOWN"),
      ("occupation", .str "UNKNOWN")]),
   ("vehicle", .obj [("registrationMark", .str "UNKNOWN"), ("makeAndModel", .str "UNKNOWN"),
      ("yearOfManufacture", .int 0), ("chassisNumber", .str "UNKNOWN"),
      ("seatingCapacity", .int 0), ("bodyType", .str "UNKNOWN")]),
   ("coverage", .obj [("typeOfCover", .str "UNKNOWN"),
      ("limitationsOnUse", .str "UNKNOWN - standard usage restrictions apply"),
      ("authorizedDrivers", .str "UNKNOWN - standard driver authorization applies"),
      ("liabilityLimits", .obj [("bodilyInjury", .int 0), ("propertyDamage", .int 0)]),
      ("excess", .obj [])]),
   ("insurerAndPolicyDetails", .obj [("periodOfInsurance", .obj [("start", .str "UNKNOWN"),
        ("end", .str "UNKNOWN")]),
      ("insurerName", .str "UNKNOWN"), ("policyNumber", .str "UNKNOWN")])]

/-- Claim C4 (amended) — the levies paragraph backfills before it tests for
removal: on a well-formed document whose `premiumAndDiscounts.levies` is a
dict `L`, the pass removes the sub-object iff both `mib` and `ia` are
*absent* from `L`, and otherwise keeps it with each present-but-null member
backfilled to `0.0` (`backfillLevy`).  In particular a levies dict whose
members are present but null is kept, not removed. -/
theorem levies_backfilled_or_removed (d d' : Fields) (L : Fields)
    (hwf : wfFields d = true)
    (hf : fillMissingRequiredFields d = .ok d')
    (hlev : getPath d ["premiumAndDiscounts", "levies"] = some (.obj L)) :
    getPath d' ["premiumAndDiscounts", "levies"] =
      if ((lookupKey L "mib").isNone && (lookupKey L "ia").isNone) = true
      then none
      else some (.obj (backfillLevy (backfillLevy L "mib") "ia")) := by
  obtain ⟨d1, d2, d3, d4, h1, h2, h3, h4, h5⟩ := fill_ok_parts d d' hf
  obtain ⟨v1, hb1, hl1, hfr1⟩ := fillSectionWith_ok _ _ _ _ _ h1
  obtain ⟨v2, hb2, hl2, hfr2⟩ := fillSectionWith_ok _ _ _ _ _ h2
  obtain ⟨v3, hb3, hl3, hfr3⟩ := fillSectionWith_ok _ _ _ _ _ h3
  obtain ⟨v4, hb4, hl4, hfr4⟩ := fillSectionWith_ok _ _ _ _ _ h4
  obtain ⟨v5, hb5, hl5, hfr5⟩ := fillSectionWith_ok _ _ _ _ _ h5
  simp only [getPath] at hlev
  obtain ⟨fs, hsec, hfsL⟩ : ∃ fs, lookupKey d "premiumAndDiscounts" = some (.obj fs) ∧
      lookupKey fs "levies" = some (.obj L) := by
    cases hsec : lookupKey d "premiumAndDiscounts" with
    | none => rw [hsec] at hlev; exact Option.noConfusion hlev
    | some x =>
      rw [hsec] at hlev
      cases x with
      | obj fs => exact ⟨fs, rfl, hlev⟩
      | null => exact Option.noConfusion hlev
      | str s => exact Option.noConfusion hlev
      | int n => exact Option.noConfusion hlev
      | num q => exact Option.noConfusion hlev
      | list l => exact Option.noConfusion hlev
  obtain ⟨fs', gs, hfs', hgs, hscal, hlevD⟩ := premiumBody_spec _ _ hb4
  subst hgs
  have hsec3 : lookupKey d3 "premiumAndDiscounts" = some (.obj fs) := by
    rw [hfr3 _ (by decide), hfr2 _ (by decide), hfr1 _ (by decide)]
    exact hsec
  rw [hsec3, Option.getD_some] at hfs'
  injection hfs' with hfs'
  have hwfs : wfFields fs = true := wfFields_lookup d _ _ hwf hsec
  have hnd : (fs'.map Prod.fst).Nodup := by
    rw [← hfs']
    exact wfFields_keys_nodup fs hwfs
  have hfsL' : lookupKey fs' "levies" = some (.obj L) := by
    rw [← hfs']
    exact hfsL
  have hres := hlevD L hnd hfsL'
  have hd' : lookupKey d' "premiumAndDiscounts" = some (.obj gs) := by
    rw [hfr5 _ (by decide)]
    exact hl4
  simp only [getPath, hd']
  exact hres

/-- Witness for claim C4 (amended) at `leviesNullDoc`: both members are
present (though null), so the levies dict is kept and backfilled. -/
theorem levies_backfilled_or_removed_witness :
    getPath leviesNullDocFilled ["premiumAndDiscounts", "levies"]
      = some (.obj [("mib", .num 0), ("ia", .num 0)]) := by
  have h := levies_backfilled_or_removed leviesNullDoc leviesNullDocFilled
    [("mib", .null), ("ia", .null)] rfl rfl rfl
  rw [if_neg (by decide)] at h
  exact h

/-- Counterexample to claim C4 as frozen: two unparseable levy lines leave
`levies == {"mib": null, "ia": null}` after line parsing, yet the completed
parse keeps the levies sub-object — backfilled to `{"mib": 0.0, "ia": 0.0}`
— instead of removing it as the claim asserts. -/
theorem levies_null_members_kept :
    ((parseLinesPhase
        "premiumAndDiscounts.levies.mib: abc\npremiumAndDiscounts.levies.ia: xyz").toOption.bind
      (fun d => getPath d ["premiumAndDiscounts", "levies"])
      = some (.obj [("mib", .null), ("ia", .null)])) ∧
    ((parseKeyValuePairs
        "premiumAndDiscounts.levies.mib: abc\npremiumAndDiscounts.levies.ia: xyz").toOption.bind
      (fun d => getPath d ["premiumAndDiscounts", "levies"])
      = some (.obj [("mib", .num 0), ("ia", .num 0)])) ∧
    some (JSON.obj [("mib", .num 0), ("ia", .num 0)]) ≠ (none : Option JSON) :=
  ⟨rfl, rfl, fun h => Option.noConfusion h⟩

/-- The schema-valid sample document of `tests/test_extractor.py` with
`vehicle.yearOfManufacture` removed (bypassing default-completion). -/
def docMissingYear : Fields :=
  [("policyholder", .obj [("name", .str "John Doe"), ("address", .str "123 Main St, Hong Kong"),
      ("occupation", .str "Engineer")]),
   ("vehicle", .obj [("registrationMark", .str "ABC123"), ("makeAndModel", .str "Toyota Camry"),
      ("chassisNumber", .str "1234567890"), ("seatingCapacity", .int 5), ("bodyType", .str "SALOON")]),
   ("coverage", .obj [("typeOfCover", .str "COMPREHENSIVE"),
      ("liabilityLimits", .obj [("bodilyInjury", .int 100000000), ("propertyDamage", .int 2000000)]),
      ("excess", .obj []),
      ("limitationsOnUse", .str "Social, domestic and pleasure"),
      ("authorizedDrivers", .str "Policyholder")]),
   ("premiumAndDiscounts", .obj [("premiumAmount", .num 5000), ("totalPayable", .num 5500),
      ("noClaimDiscount", .num 60)]),
   ("insurerAndPolicyDetails", .obj [("insurerName", .str "Test Insurance Co"),
      ("policyNumber", .str "POL123456"),
      ("periodOfInsurance", .obj [("start", .str "01/01/2024"), ("end", .str "31/12/2024")])])]

/-- Claim C5 (amended) — on a schema violation `validate_extracted_data`
returns `is_valid=False` with exactly one synthesized error string of the
form `"<path joined by the literal separator arrow> : <message>"` (the path
rendered by `" -> ".join(...)`, or `"root"` when empty), and processing
still continues to the missing-required-field scan; in particular the
sample document missing `vehicle.yearOfManufacture` yields `is_valid=False`
with missing_fields exactly `["vehicle.yearOfManufacture"]`. -/
theorem validator_violation_reporting (schema : SchemaN) (e : JsonSchemaError)
    (data : Fields) :
    validateExtractedData (.ok schema) (.vErr e) data
      = (data, ⟨false, [renderErrorPath e.path ++ ": " ++ e.message],
          checkMissingFields data schema ""⟩) ∧
    checkMissingFields docMissingYear policySchema "" = ["vehicle.yearOfManufacture"] ∧
    validateExtractedData (.ok policySchema)
        (.vErr ⟨["vehicle", "yearOfManufacture"], "is a required property"⟩) docMissingYear
      = (docMissingYear, ⟨false, ["vehicle -> yearOfManufacture: is a required property"],
          ["vehicle.yearOfManufacture"]⟩) := by
  have hchk : checkMissingFields docMissingYear policySchema ""
      = ["vehicle.yearOfManufacture"] := by
    simp [checkMissingFields, checkMissingProps, docMissingYear, policySchema,
      lookupKey, isNull]
  refine ⟨rfl, hchk, ?_⟩
  have hval : validateExtractedData (.ok policySchema)
      (.vErr ⟨["vehicle", "yearOfManufacture"], "is a required property"⟩) docMissingYear
      = (docMissingYear, ⟨false,
          [renderErrorPath ["vehicle", "yearOfManufacture"] ++ ": " ++ "is a required property"],
          checkMissingFields docMissingYear policySchema ""⟩) := rfl
  rw [hval, hchk]
  rfl

/-- Counterexample to claim C5 as frozen: the synthesized error string joins
the violation path with the literal `" -> "` separator, not with dots — for
the path `vehicle.yearOfManufacture` the error line reads
`"vehicle -> yearOfManufacture: ..."`, which differs from the dotted form
the claim describes. -/
theorem validator_error_path_not_dotted :
    (validateExtractedData (.ok policySchema)
        (.vErr ⟨["vehicle", "yearOfManufacture"], "is a required property"⟩) []).2.errors
      = ["vehicle -> yearOfManufacture: is a required property"] ∧
    "vehicle -> yearOfManufacture: is a required property"
      ≠ "vehicle.yearOfManufacture: is a required property" :=
  ⟨rfl, by decide⟩

/-- A successful `_set_nested_value` only ever replaces or appends one
top-level key of the document. -/
theorem setNestedValue_shape (d : Fields) (kp v : String) (d2 : Fields)
    (h : setNestedValue d kp v = .ok d2) :
    ∃ k0 x, d2 = setKey d k0 x := by
  unfold setNestedValue at h
  cases hsplit : pySplit kp '.' with
  | nil =>
    rw [hsplit] at h
    simp only [setNestedGo] at h
    exact Except.noConfusion h
  | cons k0 rest =>
    rw [hsplit] at h
    cases rest with
    | nil =>
      refine ⟨k0, coerceValue k0 v, ?_⟩
      simp only [setNestedGo] at h
      injection h with h
      exact h.symm
    | cons k1 rest1 =>
      simp only [setNestedGo] at h
      cases hgo : setNestedGo ((lookupKey d k0).getD (.obj [])) (k1 :: rest1) v with
      | error e =>
        rw [hgo, bindErr] at h
        exact Except.noConfusion h
      | ok child =>
        rw [hgo, bindOk, pureOk] at h
        injection h with h
        exact ⟨k0, child, h.symm⟩

/-- Replacing or appending a key never loses the presence of any key. -/
theorem lookupKey_setKey_isSome (l : Fields) (k : String) (v : JSON) (key : String)
    (h : (lookupKey l key).isSome = true) :
    (lookupKey (setKey l k v) key).isSome = true := by
  by_cases hk : key = k
  · subst hk
    rw [lookupKey_setKey_self]
    rfl
  · rw [lookupKey_setKey_ne l k key v hk]
    exact h

/-- One parser line step either leaves the document unchanged or performs a
single `_set_nested_value`. -/
theorem processLine_cases (d d2 : Fields) (line : String)
    (h : processLine d line = .ok d2) :
    d2 = d ∨ ∃ kp v, setNestedValue d kp v = .ok d2 := by
  unfold processLine at h
  split at h
  · injection h with h
    exact Or.inl h.symm
  split at h
  · injection h with h
    exact Or.inl h.symm
  replace h : (if lineValue line = "" then Except.ok d
    else if pyLower (lineValue line) = "null" ∧ ¬ pyInStr "N/A" (lineValue line) = true ∧
        ¬ pyInStr "UNKNOWN" (pyUpper (lineValue line)) = true ∧
        ¬ pyInStr "REDACTED" (pyUpper (lineValue line)) = true then Except.ok d
    else setNestedValue d (lineKey line) (lineValue line)) = Except.ok d2 := h
  split at h
  · injection h with h
    exact Or.inl h.symm
  split at h
  · injection h with h
    exact Or.inl h.symm
  · exact Or.inr ⟨_, _, h⟩

/-- The line loop preserves the presence of every top-level key. -/
theorem parseLines_presence (lines : List String) (d d' : Fields)
    (h : lines.foldlM processLine d = .ok d') (k : String)
    (hk : (lookupKey d k).isSome = true) : (lookupKey d' k).isSome = true := by
  induction lines generalizing d with
  | nil =>
    rw [List.foldlM_nil] at h
    injection h with h
    rw [← h]
    exact hk
  | cons l rest ih =>
    rw [List.foldlM_cons] at h
    cases hstep : processLine d l with
    | error e =>
      rw [hstep, bindErr] at h
      exact Except.noConfusion h
    | ok d1 =>
      rw [hstep, bindOk] at h
      refine ih d1 h ?_
      rcases processLine_cases d d1 l hstep with heq | ⟨kp, v, hset⟩
      · rw [heq]
        exact hk
      · obtain ⟨k0, x, hshape⟩ := setNestedValue_shape d kp v d1 hset
        rw [hshape]
        exact lookupKey_setKey_isSome d k0 x k hk

/-- Claim C10 (amended) — whenever `_parse_key_value_pairs` returns
normally, the document holds all six top-level section keys (present, though
the `excess` and `additionalEndorsements` values may have been
overwritten by response lines); the five filled sections are dicts; the
`coverage` dict holds a `liabilityLimits` sub-dict and an `excess` key, and
the `insurerAndPolicyDetails` dict holds a `periodOfInsurance` sub-dict.
(`excess` and `additionalEndorsements` are merely present: the
counterexample shows response lines can leave plain strings there.) -/
theorem parse_result_structural_shape (text : String) (d' : Fields)
    (hp : parseKeyValuePairs text = .ok d') :
    (∀ k, k ∈ ["policyholder", "vehicle", "coverage", "premiumAndDiscounts",
        "insurerAndPolicyDetails", "additionalEndorsements"] →
      (lookupKey d' k).isSome = true) ∧
    (∃ hs, lookupKey d' "policyholder" = some (.obj hs)) ∧
    (∃ vs, lookupKey d' "vehicle" = some (.obj vs)) ∧
    (∃ prs, lookupKey d' "premiumAndDiscounts" = some (.obj prs)) ∧
    (∃ cs, lookupKey d' "coverage" = some (.obj cs) ∧
      (∃ ls, lookupKey cs "liabilityLimits" = some (.obj ls)) ∧
      (lookupKey cs "excess").isSome = true) ∧
    (∃ ps, lookupKey d' "insurerAndPolicyDetails" = some (.obj ps) ∧
      ∃ ms, lookupKey ps "periodOfInsurance" = some (.obj ms)) := by
  unfold parseKeyValuePairs at hp
  cases h0 : parseLinesPhase text with
  | error e =>
    rw [h0, bindErr] at hp
    exact Except.noConfusion hp
  | ok d0 =>
  rw [h0, bindOk] at hp
  obtain ⟨d1, d2, d3, d4, h1, h2, h3, h4, h5⟩ := fill_ok_parts d0 d' hp
  obtain ⟨v1, hb1, hl1, hfr1⟩ := fillSectionWith_ok _ _ _ _ _ h1
  obtain ⟨v2, hb2, hl2, hfr2⟩ := fillSectionWith_ok _ _ _ _ _ h2
  obtain ⟨v3, hb3, hl3, hfr3⟩ := fillSectionWith_ok _ _ _ _ _ h3
  obtain ⟨v4, hb4, hl4, hfr4⟩ := fillSectionWith_ok _ _ _ _ _ h4
  obtain ⟨v5, hb5, hl5, hfr5⟩ := fillSectionWith_ok _ _ _ _ _ h5
  have hd1 : lookupKey d' "policyholder" = some v1 := by
    rw [hfr5 _ (by decide), hfr4 _ (by decide), hfr3 _ (by decide), hfr2 _ (by decide)]
    exact hl1
  have hd2 : lookupKey d' "vehicle" = some v2 := by
    rw [hfr5 _ (by decide), hfr4 _ (by decide), hfr3 _ (by decide)]
    exact hl2
  have hd3 : lookupKey d' "coverage" = some v3 := by
    rw [hfr5 _ (by decide), hfr4 _ (by decide)]
    exact hl3
  have hd4 : lookupKey d' "premiumAndDiscounts" = some v4 := by
    rw [hfr5 _ (by decide)]
    exact hl4
  have hd5 : lookupKey d' "insurerAndPolicyDetails" = some v5 := hl5
  have haE : (lookupKey d' "additionalEndorsements").isSome = true := by
    rw [hfr5 _ (by decide), hfr4 _ (by decide), hfr3 _ (by decide), hfr2 _ (by decide),
      hfr1 _ (by decide)]
    exact parseLines_presence _ _ _ h0 "additionalEndorsements" (by decide)
  obtain ⟨fs1, hfs1⟩ := fillScalars_ok_obj _ _ _ _ _
    (show fillScalars ((lookupKey d0 "policyholder").getD (.obj []))
      (("name", JSON.str "UNKNOWN") :: ("address", JSON.str "UNKNOWN") ::
       [("occupation", JSON.str "UNKNOWN")]) = .ok v1 from hb1)
  rw [hfs1] at hb1
  obtain ⟨gs1, hv1, -, -⟩ := fillScalars_spec policyholderDefaults fs1 v1 (by decide) hb1
  obtain ⟨fs2, hfs2⟩ := fillScalars_ok_obj _ _ _ _ _
    (show fillScalars ((lookupKey d1 "vehicle").getD (.obj []))
      (("registrationMark", JSON.str "UNKNOWN") :: ("makeAndModel", JSON.str "UNKNOWN") ::
       ("yearOfManufacture", JSON.int 0) :: ("chassisNumber", JSON.str "UNKNOWN") ::
       ("seatingCapacity", JSON.int 0) :: [("bodyType", JSON.str "UNKNOWN")]) = .ok v2
      from hb2)
  rw [hfs2] at hb2
  obtain ⟨gs2, hv2, -, -⟩ := fillScalars_spec vehicleDefaults fs2 v2 (by decide) hb2
  obtain ⟨fsD, gsD, hfsD, hgsD, hscalD, hlevD⟩ := premiumBody_spec _ _ hb4
  subst hgsD
  obtain ⟨fsC, gsC, lsC, msC, hfsC, hgsC, hlsC, hllC, hexC, hscalC, hliabC⟩ :=
    coverageBody_spec _ _ hb3
  subst hgsC
  obtain ⟨fsI, gsI, psI, msI, hfsI, hgsI, hpsI, hpoiI, hscalI, hperI⟩ :=
    insurerBody_spec _ _ hb5
  subst hgsI
  refine ⟨?_, ⟨gs1, by rw [hd1, hv1]⟩, ⟨gs2, by rw [hd2, hv2]⟩, ⟨gsD, hd4⟩,
    ⟨gsC, hd3, ⟨msC, hllC⟩, hexC⟩, ⟨gsI, hd5, ⟨msI, hpoiI⟩⟩⟩
  intro k hk
  fin_cases hk
  · rw [hd1]; rfl
  · rw [hd2]; rfl
  · rw [hd3]; rfl
  · rw [hd4]; rfl
  · rw [hd5]; rfl
  · exact haE

/-- Witness for claim C10 (amended) at the empty response text. -/
theorem parse_result_structural_shape_witness :
    (lookupKey parsedEmptyDoc "additionalEndorsements").isSome = true ∧
    (∃ hs, lookupKey parsedEmptyDoc "policyholder" = some (.obj hs)) ∧
    (∃ cs, lookupKey parsedEmptyDoc "coverage" = some (.obj cs) ∧
      (∃ ls, lookupKey cs "liabilityLimits" = some (.obj ls)) ∧
      (lookupKey cs "excess").isSome = true) := by
  have h := parse_result_structural_shape "" parsedEmptyDoc rfl
  exact ⟨h.1 "additionalEndorsements" (by simp), h.2.1, h.2.2.2.2.1⟩

/-- Counterexample to claim C10 as frozen: response lines can overwrite
`coverage.excess` and `additionalEndorsements` with plain strings, and the
parse still returns normally — so the returned document does not always hold
`excess` and `additionalEndorsements` sub-mappings. -/
theorem excess_and_endorsements_not_submappings :
    ((parseKeyValuePairs "coverage.excess: X\nadditionalEndorsements: Y").toOption.bind
        (fun d => getPath d ["coverage", "excess"]) = some (.str "X")) ∧
    isObj (.str "X") = false ∧
    ((parseKeyValuePairs "coverage.excess: X\nadditionalEndorsements: Y").toOption.bind
        (fun d => lookupKey d "additionalEndorsements") = some (.str "Y")) ∧
    isObj (.str "Y") = false :=
  ⟨rfl, rfl, rfl, rfl⟩
